import Mathlib

/-!
# sing-box-manager: account registry and configuration projector

A shallow embedding of `internal/models/user.go`, `internal/storage/json_storage.go`,
`internal/service/user_service.go` and `internal/service/config_service.go`.

Modelling conventions

* Instants (`time.Time`) are integers on one time line. The clock `time.Now()` is an
  explicit `now` argument of the operation that reads it; a loop that reads the clock once
  for every account (`GenerateConfig`, `cleanupExpiredUsers`) gets one reading for the
  whole loop.
* `int64` and `int` fields are integers; the one arithmetic operation on them
  (`TrafficUsed += bytesUsed`) wraps to the signed 64-bit range.
* The Go map `users map[string]*models.User` is an association list from keys to
  records. The code keeps exactly one pointer per key and never shares a record between
  two keys, so a record is stored by value. Range loops over the map visit the list in
  order.
* `uuid.New().String()` is an explicit `newID` argument, `time.Parse(time.RFC3339, _)` an
  explicit `parse` function, and the outcome of `os.WriteFile` an explicit boolean `w`.
  At start-up the result of `os.ReadFile` and the decoder `json.Unmarshal` are arguments
  too, and so are the outcomes and the output of the external `pkill` and `sing-box`
  commands.
* The backing file is part of the state: `file` holds the account map that was last
  serialized into it (`none`: nothing written yet). A failed write leaves it as it was.
* A Go `error` result is `Except Error Unit`; a `(*User, error)` result is
  `Except Error User`. Every operation returns its result together with the next state.
* Calls run one after the other, each to completion. Two places look closer: interleaved
  `CreateUser` calls are split at the point between their two critical sections
  (`stepCall`, `runSchedule`), and what a caller can do with a returned `*models.User` is
  stated on the map with its pointers (`LiveStorage`), whose view by value is the map above.
-/

namespace SingBox

/-! ## internal/models/user.go -/

/-- The account record `models.User`. -/
structure User where
  ID : String
  Username : String
  Password : String
  CreatedAt : Int
  ExpiresAt : Int
  TrafficLimit : Int
  TrafficUsed : Int
  DeviceLimit : Int
  ConnectedDevices : List String
  IsActive : Bool
deriving DecidableEq, Repr

/-- The request `models.CreateUserRequest`; `ExpiresAt` is still text. -/
structure CreateUserRequest where
  Username : String
  Password : String
  ExpiresAt : String
  TrafficLimit : Int
  DeviceLimit : Int
deriving DecidableEq, Repr

/-- The request `models.UpdateUserRequest`; a nil pointer field is `none`. -/
structure UpdateUserRequest where
  ExpiresAt : Option String
  TrafficLimit : Option Int
  DeviceLimit : Option Int
  IsActive : Option Bool
deriving DecidableEq, Repr

namespace User

/-- Function `IsExpired`: `time.Now().After(u.ExpiresAt)`, the clock reading being `now`. -/
def IsExpired (u : User) (now : Int) : Bool :=
  decide (u.ExpiresAt < now)

/-- Function `IsTrafficExceeded`: `u.TrafficUsed >= u.TrafficLimit`. -/
def IsTrafficExceeded (u : User) : Bool :=
  decide (u.TrafficLimit ≤ u.TrafficUsed)

/-- Function `CanConnect`: the eligibility test first, then the scan for an already
connected device, then the device limit. -/
def CanConnect (u : User) (now : Int) (deviceID : String) : Bool :=
  if !u.IsActive || u.IsExpired now || u.IsTrafficExceeded then false
  else if u.ConnectedDevices.any (fun device => device == deviceID) then true
  else decide ((u.ConnectedDevices.length : Int) < u.DeviceLimit)

end User

/-! ## Errors -/

/-- The errors the registry and the services build with `fmt.Errorf`, one constructor a
message, the error of a failed `saveToFile`, that of a failed write of the generated
configuration, those of `os.ReadFile` and `json.Unmarshal` at start-up, and the two errors
of the process commands (`failed to generate reality keypair`, `failed to start
sing-box`). -/
inductive Error where
  | idExists (id : String)
  | idNotFound (id : String)
  | usernameNotFound (username : String)
  | usernameExists (username : String)
  | invalidExpiresAt
  | cannotConnect
  | writeFailed
  | configWriteFailed
  | readFailed
  | unmarshalFailed
  | keypairFailed
  | startFailed
deriving DecidableEq, Repr

/-- Whether a result carries an error (`err != nil`). -/
def isError {α : Type} : Except Error α → Bool
  | .error _ => true
  | .ok _ => false

/-- Equality of results is decidable. -/
instance instDecidableEqExcept {ε α : Type} [DecidableEq ε] [DecidableEq α] :
    DecidableEq (Except ε α)
  | .ok a, .ok b => if h : a = b then isTrue (by rw [h]) else isFalse (by intro h2; cases h2; exact h rfl)
  | .error a, .error b => if h : a = b then isTrue (by rw [h]) else isFalse (by intro h2; cases h2; exact h rfl)
  | .ok _, .error _ => isFalse (by intro h; cases h)
  | .error _, .ok _ => isFalse (by intro h; cases h)

/-! ## The Go map -/

/-- The map `map[string]*models.User` as an association list. -/
abbrev UserMap := List (String × User)

/-- Map read `m[id]`: the first entry under the key. -/
def mapGet : UserMap → String → Option User
  | [], _ => none
  | (k, v) :: rest, id => if k = id then some v else mapGet rest id

/-- Map write `m[id] = user`: replaces the entry under the key, or adds one. -/
def mapSet : UserMap → String → User → UserMap
  | [], id, user => [(id, user)]
  | (k, v) :: rest, id, user =>
    if k = id then (id, user) :: rest else (k, v) :: mapSet rest id user

/-- Map removal `delete(m, id)`. -/
def mapDelete (m : UserMap) (id : String) : UserMap :=
  m.filter (fun p => decide (p.1 ≠ id))

/-- Signed 64-bit wrap-around of an integer. -/
def wrapInt64 (x : Int) : Int :=
  (x + 2 ^ 63) % 2 ^ 64 - 2 ^ 63

/-- The loop of `RemoveConnectedDevice`: cut out the first entry equal to `deviceID`. -/
def removeDevice : List String → String → List String
  | [], _ => []
  | device :: rest, deviceID =>
    if device = deviceID then rest else device :: removeDevice rest deviceID

/-! ## internal/storage/json_storage.go -/

/-- The registry `storage.JSONStorage`: the in-memory map and the image of its file. -/
structure JSONStorage where
  users : UserMap
  file : Option UserMap
deriving DecidableEq, Repr

namespace JSONStorage

/-- Function `saveToFile`: serialize the whole map and write it; `w` is whether that succeeds. -/
def saveToFile (s : JSONStorage) (w : Bool) : Except Error Unit × JSONStorage :=
  if w then (.ok (), { s with file := some s.users })
  else (.error .writeFailed, s)

/-- Storage-level `CreateUser`. -/
def CreateUser (s : JSONStorage) (user : User) (w : Bool) :
    Except Error Unit × JSONStorage :=
  match mapGet s.users user.ID with
  | some _ => (.error (.idExists user.ID), s)
  | none => saveToFile { s with users := mapSet s.users user.ID user } w

/-- Storage-level `GetUser`. -/
def GetUser (s : JSONStorage) (id : String) : Except Error User :=
  match mapGet s.users id with
  | none => .error (.idNotFound id)
  | some user => .ok user

/-- Storage-level `GetUserByUsername`: the first record with the name. -/
def GetUserByUsername (s : JSONStorage) (username : String) : Except Error User :=
  match s.users.find? (fun p => p.2.Username == username) with
  | some p => .ok p.2
  | none => .error (.usernameNotFound username)

/-- Storage-level `UpdateUser`. -/
def UpdateUser (s : JSONStorage) (id : String) (user : User) (w : Bool) :
    Except Error Unit × JSONStorage :=
  match mapGet s.users id with
  | none => (.error (.idNotFound id), s)
  | some _ => saveToFile { s with users := mapSet s.users id user } w

/-- Storage-level `DeleteUser`. -/
def DeleteUser (s : JSONStorage) (id : String) (w : Bool) :
    Except Error Unit × JSONStorage :=
  match mapGet s.users id with
  | none => (.error (.idNotFound id), s)
  | some _ => saveToFile { s with users := mapDelete s.users id } w

/-- Storage-level `ListUsers`. -/
def ListUsers (s : JSONStorage) : List User :=
  s.users.foldl (fun users p => users ++ [p.2]) []

/-- Storage-level `AddConnectedDevice`: an already connected device returns without a
write. -/
def AddConnectedDevice (s : JSONStorage) (userID deviceID : String) (w : Bool) :
    Except Error Unit × JSONStorage :=
  match mapGet s.users userID with
  | none => (.error (.idNotFound userID), s)
  | some user =>
    if user.ConnectedDevices.any (fun device => device == deviceID) then (.ok (), s)
    else
      let user1 : User :=
        { user with ConnectedDevices := user.ConnectedDevices ++ [deviceID] }
      saveToFile { s with users := mapSet s.users userID user1 } w

/-- Storage-level `RemoveConnectedDevice`: writes whether or not a device was cut out. -/
def RemoveConnectedDevice (s : JSONStorage) (userID deviceID : String) (w : Bool) :
    Except Error Unit × JSONStorage :=
  match mapGet s.users userID with
  | none => (.error (.idNotFound userID), s)
  | some user =>
    let user1 : User :=
      { user with ConnectedDevices := removeDevice user.ConnectedDevices deviceID }
    saveToFile { s with users := mapSet s.users userID user1 } w

/-- Storage-level `UpdateTrafficUsage`: `user.TrafficUsed += bytesUsed` on an `int64`. -/
def UpdateTrafficUsage (s : JSONStorage) (userID : String) (bytesUsed : Int) (w : Bool) :
    Except Error Unit × JSONStorage :=
  match mapGet s.users userID with
  | none => (.error (.idNotFound userID), s)
  | some user =>
    let user1 : User :=
      { user with TrafficUsed := wrapInt64 (user.TrafficUsed + bytesUsed) }
    saveToFile { s with users := mapSet s.users userID user1 } w

/-- The sweep `cleanupExpiredUsers`: collect the expired keys, delete each, and write
once if any was collected; the result of that write is dropped. -/
def cleanupExpiredUsers (s : JSONStorage) (now : Int) (w : Bool) : JSONStorage :=
  let expiredUsers : List String :=
    s.users.foldl (fun ids p => if p.2.IsExpired now then ids ++ [p.1] else ids) []
  let s1 : JSONStorage := { s with users := expiredUsers.foldl mapDelete s.users }
  if expiredUsers.length > 0 then (saveToFile s1 w).2 else s1

/-- What `os.ReadFile` of the backing file gives at start-up. -/
inductive ReadResult where
  | notExist
  | failed
  | data (content : String)
deriving DecidableEq, Repr

/-- Function `loadFromFile` on the registry `NewJSONStorage` has just allocated: a missing
file is created by `saveToFile`, another read error is returned, an empty file leaves the
map empty, and any other content goes through `json.Unmarshal`. The decoder is the argument
`unmarshal`: its error, and the entries it has put into the map (on an error, those decoded
before it stopped). -/
def loadFromFile (s : JSONStorage) (unmarshal : String → Except Error Unit × UserMap)
    (read : ReadResult) (w : Bool) : Except Error Unit × JSONStorage :=
  match read with
  | .notExist => saveToFile s w
  | .failed => (.error .readFailed, s)
  | .data content =>
    if content.utf8ByteSize = 0 then (.ok (), s)
    else ((unmarshal content).1, { s with users := (unmarshal content).2 })

/-- Function `NewJSONStorage`: allocate the registry with an empty map, call
`loadFromFile` and drop what it returns, hand the registry out. It has no error result. -/
def NewJSONStorage (unmarshal : String → Except Error Unit × UserMap) (read : ReadResult)
    (w : Bool) : JSONStorage :=
  let storage : JSONStorage := { users := [], file := none }
  (loadFromFile storage unmarshal read w).2

end JSONStorage

/-! ## internal/service/user_service.go -/

namespace UserService

/-- Service-level `CreateUser`. -/
def CreateUser (parse : String → Option Int) (s : JSONStorage) (req : CreateUserRequest)
    (newID : String) (now : Int) (w : Bool) : Except Error User × JSONStorage :=
  match s.GetUserByUsername req.Username with
  | .ok _ => (.error (.usernameExists req.Username), s)
  | .error _ =>
    match parse req.ExpiresAt with
    | none => (.error .invalidExpiresAt, s)
    | some expiresAt =>
      let user : User :=
        { ID := newID
          Username := req.Username
          Password := req.Password
          CreatedAt := now
          ExpiresAt := expiresAt
          TrafficLimit := req.TrafficLimit
          TrafficUsed := 0
          DeviceLimit := req.DeviceLimit
          ConnectedDevices := []
          IsActive := true }
      match s.CreateUser user w with
      | (.error e, s1) => (.error e, s1)
      | (.ok _, s1) => (.ok user, s1)

/-- Service-level `GetUser`. -/
def GetUser (s : JSONStorage) (id : String) : Except Error User :=
  s.GetUser id

/-- Service-level `GetUserByUsername`. -/
def GetUserByUsername (s : JSONStorage) (username : String) : Except Error User :=
  s.GetUserByUsername username

/-- The field assignments of `UpdateUser` after the expiry has been parsed. -/
def applyPatch (user : User) (expiresAt : Option Int) (req : UpdateUserRequest) : User :=
  let u1 : User :=
    match expiresAt with
    | some t => { user with ExpiresAt := t }
    | none => user
  let u2 : User :=
    match req.TrafficLimit with
    | some v => { u1 with TrafficLimit := v }
    | none => u1
  let u3 : User :=
    match req.DeviceLimit with
    | some v => { u2 with DeviceLimit := v }
    | none => u2
  match req.IsActive with
  | some v => { u3 with IsActive := v }
  | none => u3

/-- Service-level `UpdateUser`: a malformed expiry returns before any field is assigned. -/
def UpdateUser (parse : String → Option Int) (s : JSONStorage) (id : String)
    (req : UpdateUserRequest) (w : Bool) : Except Error User × JSONStorage :=
  match s.GetUser id with
  | .error e => (.error e, s)
  | .ok user =>
    let parsed : Option (Option Int) :=
      match req.ExpiresAt with
      | none => some none
      | some text =>
        match parse text with
        | none => none
        | some t => some (some t)
    match parsed with
    | none => (.error .invalidExpiresAt, s)
    | some expiresAt =>
      let user1 := applyPatch user expiresAt req
      match s.UpdateUser id user1 w with
      | (.error e, s1) => (.error e, s1)
      | (.ok _, s1) => (.ok user1, s1)

/-- Service-level `DeleteUser`. -/
def DeleteUser (s : JSONStorage) (id : String) (w : Bool) :
    Except Error Unit × JSONStorage :=
  s.DeleteUser id w

/-- Service-level `ListUsers`. -/
def ListUsers (s : JSONStorage) : List User :=
  s.ListUsers

/-- Service-level `ConnectDevice`. -/
def ConnectDevice (s : JSONStorage) (userID deviceID : String) (now : Int) (w : Bool) :
    Except Error Unit × JSONStorage :=
  match s.GetUser userID with
  | .error e => (.error e, s)
  | .ok user =>
    if !user.CanConnect now deviceID then (.error .cannotConnect, s)
    else s.AddConnectedDevice userID deviceID w

/-- Service-level `DisconnectDevice`. -/
def DisconnectDevice (s : JSONStorage) (userID deviceID : String) (w : Bool) :
    Except Error Unit × JSONStorage :=
  s.RemoveConnectedDevice userID deviceID w

/-- Service-level `UpdateTrafficUsage`. -/
def UpdateTrafficUsage (s : JSONStorage) (userID : String) (bytesUsed : Int) (w : Bool) :
    Except Error Unit × JSONStorage :=
  s.UpdateTrafficUsage userID bytesUsed w

end UserService

/-! ## internal/service/config_service.go -/

/-- One entry of a user list, `UserConfig`; an omitted field is the empty string. -/
structure UserConfig where
  Name : String
  Password : String
  UUID : String
deriving DecidableEq, Repr

/-- The handshake target `RealityHandshake`. -/
structure RealityHandshake where
  Server : String
  ServerPort : Int
deriving DecidableEq, Repr

/-- The transport-obfuscation block `RealityConfig`. -/
structure RealityConfig where
  Enabled : Bool
  Handshake : RealityHandshake
  PrivateKey : String
  ShortID : List String
deriving DecidableEq, Repr

/-- The block `TLSConfig`; a nil `Reality` is `none`. -/
structure TLSConfig where
  Enabled : Bool
  ServerName : String
  CertificatePath : String
  KeyPath : String
  Reality : Option RealityConfig
deriving DecidableEq, Repr

/-- A listener `Inbound`; the Go field `Type` is `Typ`, a nil `TLS` is `none`. -/
structure Inbound where
  Typ : String
  Tag : String
  Listen : String
  ListenPort : Int
  Sniff : Bool
  SniffOverrideDestination : Bool
  TLS : Option TLSConfig
  Users : List UserConfig
deriving DecidableEq, Repr

/-- An element of `DNS.Servers`. -/
structure DNSServer where
  Tag : String
  Address : String
  Detour : String
deriving DecidableEq, Repr

/-- An element of `DNS.Rules`. -/
structure DNSRule where
  DomainSuffix : List String
  Server : String
deriving DecidableEq, Repr

/-- An element of `Outbounds`; the Go field `Type` is `Typ`. -/
structure Outbound where
  Typ : String
  Tag : String
deriving DecidableEq, Repr

/-- An element of `Route.Rules`. -/
structure RouteRule where
  Protocol : String
  IPIsPrivate : Bool
  Outbound : String
deriving DecidableEq, Repr

/-- The document `SingBoxConfig`, its anonymous structs flattened into fields. -/
structure SingBoxConfig where
  LogLevel : String
  LogTimestamp : Bool
  DNSServers : List DNSServer
  DNSRules : List DNSRule
  Inbounds : List Inbound
  Outbounds : List Outbound
  RouteRules : List RouteRule
deriving DecidableEq, Repr

/-- The service `ConfigService` without its registry pointer, which is passed along. -/
structure ConfigService where
  configPath : String
  templatePath : String
  serverName : String
deriving DecidableEq, Repr

/-- The predicate `unicode.IsSpace` on a code point. -/
def isSpace (c : Char) : Bool :=
  let n := c.toNat
  (9 ≤ n && n ≤ 13) || n = 32 || n = 133 || n = 160 || n = 5760 ||
    (8192 ≤ n && n ≤ 8202) || n = 8232 || n = 8233 || n = 8239 || n = 8287 || n = 12288

/-- The function `strings.TrimSpace`: drop leading and trailing white space. -/
def TrimSpace (text : String) : String :=
  String.mk ((text.data.dropWhile isSpace).reverse.dropWhile isSpace).reverse

/-- Function `strings.Split` for a separator of one character. -/
def splitOnChar (sep : Char) : List Char → List (List Char)
  | [] => [[]]
  | c :: rest =>
    if c = sep then [] :: splitOnChar sep rest
    else
      match splitOnChar sep rest with
      | [] => [[c]]
      | first :: more => (c :: first) :: more

/-- Whether `text` starts with `label`. -/
def startsWith : List Char → List Char → Bool
  | _, [] => true
  | [], _ :: _ => false
  | c :: cs, l :: ls => decide (c = l) && startsWith cs ls

/-- Function `strings.Contains`: whether `label` occurs in `text`. -/
def containsText : List Char → List Char → Bool
  | [], label => startsWith [] label
  | c :: cs, label => startsWith (c :: cs) label || containsText cs label

/-- The map `GenerateRealityKeypair` returns; it has at most the keys `private_key` and
`public_key`, and an absent key is `none`. -/
structure Keypair where
  private_key : Option String
  public_key : Option String
deriving DecidableEq, Repr

/-- The value the keypair loop stores for a matching line:
`strings.TrimSpace(strings.Split(line, ":")[1])`. A matching line has a colon, so the index
exists. -/
def keyField (line : List Char) : String :=
  TrimSpace (String.mk ((splitOnChar (Char.ofNat 58) line).getD 1 []))

/-- One round of the keypair loop. -/
def keypairLine (result : Keypair) (line : List Char) : Keypair :=
  let r1 : Keypair :=
    if containsText line "PrivateKey:".data then
      { result with private_key := some (keyField line) }
    else result
  if containsText line "PublicKey:".data then { r1 with public_key := some (keyField line) }
  else r1

/-- What the three process commands of the service report: whether `pkill -HUP sing-box`,
`pkill sing-box` and the start of `sing-box run` succeed. -/
structure ProcessControl where
  signal : Bool
  stop : Bool
  start : Bool
deriving DecidableEq, Repr

/-- A step the service takes on the external process. -/
inductive ProcessAction where
  | signal
  | stop
  | wait
  | start
deriving DecidableEq, Repr

namespace ConfigService

/-- Function `getRealityPrivateKey`; `keyFile` is the content of `configs/reality_private.key`
when reading it succeeds. -/
def getRealityPrivateKey (_cs : ConfigService) (keyFile : Option String) : String :=
  match keyFile with
  | some data => TrimSpace data
  | none => "oNglJo5OpvsjAjIWnGgVaQ_EUQP5_YKnGmnNdvhTCXM"

/-- Function `buildTrojanUsers`: one name and password entry an account, in order. -/
def buildTrojanUsers (_cs : ConfigService) (users : List User) : List UserConfig :=
  users.foldl
    (fun userConfigs user =>
      userConfigs ++ [{ Name := user.Username, Password := user.Password, UUID := "" }])
    []

/-- Function `buildVlessUsers`: one name and uuid entry an account, in order. -/
def buildVlessUsers (_cs : ConfigService) (users : List User) : List UserConfig :=
  users.foldl
    (fun userConfigs user =>
      userConfigs ++ [{ Name := user.Username, Password := "", UUID := user.ID }])
    []

/-- Function `buildConfig`: the whole document for a list of accounts. -/
def buildConfig (cs : ConfigService) (keyFile : Option String) (users : List User) :
    SingBoxConfig :=
  { LogLevel := "info"
    LogTimestamp := true
    DNSServers :=
      [ { Tag := "cloudflare", Address := "1.1.1.1", Detour := "" },
        { Tag := "local", Address := "local", Detour := "direct" } ]
    DNSRules := [ { DomainSuffix := [".cn"], Server := "local" } ]
    Inbounds :=
      [ { Typ := "mixed"
          Tag := "mixed-in"
          Listen := "::"
          ListenPort := 1080
          Sniff := true
          SniffOverrideDestination := true
          TLS := none
          Users := [] },
        { Typ := "trojan"
          Tag := "trojan-in"
          Listen := "::"
          ListenPort := 443
          Sniff := true
          SniffOverrideDestination := true
          TLS := some
            { Enabled := true
              ServerName := cs.serverName
              CertificatePath := "configs/cert.pem"
              KeyPath := "configs/key.pem"
              Reality := none }
          Users := cs.buildTrojanUsers users },
        { Typ := "vless"
          Tag := "vless-in"
          Listen := "::"
          ListenPort := 8443
          Sniff := true
          SniffOverrideDestination := true
          TLS := some
            { Enabled := true
              ServerName := cs.serverName
              CertificatePath := "configs/cert.pem"
              KeyPath := "configs/key.pem"
              Reality := none }
          Users := cs.buildVlessUsers users },
        { Typ := "vless"
          Tag := "vless-reality-in"
          Listen := "::"
          ListenPort := 4433
          Sniff := true
          SniffOverrideDestination := true
          TLS := some
            { Enabled := true
              ServerName := "www.google.com"
              CertificatePath := ""
              KeyPath := ""
              Reality := some
                { Enabled := true
                  Handshake := { Server := "www.google.com", ServerPort := 443 }
                  PrivateKey := cs.getRealityPrivateKey keyFile
                  ShortID := ["0123456789abcdef"] } }
          Users := cs.buildVlessUsers users } ]
    Outbounds := [ { Typ := "direct", Tag := "direct" }, { Typ := "block", Tag := "block" } ]
    RouteRules :=
      [ { Protocol := "dns", IPIsPrivate := false, Outbound := "dns-out" },
        { Protocol := "", IPIsPrivate := true, Outbound := "direct" } ] }

/-- The filter loop of `GenerateConfig`: the accounts handed on to `buildConfig`. -/
def activeUsers (users : List User) (now : Int) : List User :=
  users.foldl
    (fun activeUsers user =>
      if user.IsActive && !user.IsExpired now && !user.IsTrafficExceeded then
        activeUsers ++ [user]
      else activeUsers)
    []

/-- Function `GenerateConfig`: list the accounts, filter them, build the document and write it;
`.ok config` says that `config` was written to `configPath`. -/
def GenerateConfig (cs : ConfigService) (s : JSONStorage) (now : Int)
    (keyFile : Option String) (w : Bool) : Except Error SingBoxConfig :=
  let users := s.ListUsers
  let config := cs.buildConfig keyFile (activeUsers users now)
  if w then .ok config else .error .configWriteFailed

/-- Function `RestartSingBox`: stop (its result is dropped), wait two seconds, start;
the result is that of the start. The second component lists the steps taken. -/
def RestartSingBox (_cs : ConfigService) (env : ProcessControl) :
    Except Error Unit × List ProcessAction :=
  if env.start then (.ok (), [.stop, .wait, .start])
  else (.error .startFailed, [.stop, .wait, .start])

/-- Function `ReloadSingBox`: send the reload signal, and restart when that fails. -/
def ReloadSingBox (cs : ConfigService) (env : ProcessControl) :
    Except Error Unit × List ProcessAction :=
  if env.signal then (.ok (), [.signal])
  else ((cs.RestartSingBox env).1, .signal :: (cs.RestartSingBox env).2)

/-- Function `GenerateRealityKeypair`; `output` is the standard output of
`sing-box generate reality-keypair`, `none` when the command fails. The second component is
what is written to `configs/reality_private.key`, `none` when nothing is written. -/
def GenerateRealityKeypair (_cs : ConfigService) (output : Option String) :
    Except Error Keypair × Option String :=
  match output with
  | none => (.error .keypairFailed, none)
  | some text =>
    let lines := splitOnChar (Char.ofNat 10) text.data
    let result := lines.foldl keypairLine { private_key := none, public_key := none }
    (.ok result, result.private_key)

end ConfigService

/-! ## Sequential runs of the registry -/

/-- One completed call of a registry operation, with what its environment supplied. -/
inductive Op where
  | createUser (req : CreateUserRequest) (newID : String) (now : Int) (w : Bool)
  | updateUser (id : String) (req : UpdateUserRequest) (w : Bool)
  | deleteUser (id : String) (w : Bool)
  | connectDevice (userID deviceID : String) (now : Int) (w : Bool)
  | disconnectDevice (userID deviceID : String) (w : Bool)
  | updateTrafficUsage (userID : String) (bytesUsed : Int) (w : Bool)
  | cleanupExpiredUsers (now : Int) (w : Bool)
deriving DecidableEq, Repr

/-- The state a call leaves behind. -/
def step (parse : String → Option Int) (op : Op) (s : JSONStorage) : JSONStorage :=
  match op with
  | .createUser req newID now w => (UserService.CreateUser parse s req newID now w).2
  | .updateUser id req w => (UserService.UpdateUser parse s id req w).2
  | .deleteUser id w => (UserService.DeleteUser s id w).2
  | .connectDevice userID deviceID now w => (UserService.ConnectDevice s userID deviceID now w).2
  | .disconnectDevice userID deviceID w => (UserService.DisconnectDevice s userID deviceID w).2
  | .updateTrafficUsage userID bytesUsed w =>
    (UserService.UpdateTrafficUsage s userID bytesUsed w).2
  | .cleanupExpiredUsers now w => s.cleanupExpiredUsers now w

/-- The state after a sequence of calls, each run to completion before the next. -/
def run (parse : String → Option Int) (ops : List Op) (s : JSONStorage) : JSONStorage :=
  ops.foldl (fun st op => step parse op st) s

/-- The registry `NewJSONStorage` starts from: no account, nothing written. -/
def emptyStorage : JSONStorage :=
  { users := [], file := none }

/-- States reachable from an empty registry by calls that `allowed` admits. -/
inductive ReachableVia (parse : String → Option Int) (allowed : JSONStorage → Op → Prop) :
    JSONStorage → Prop where
  | init (file : Option UserMap) : ReachableVia parse allowed { users := [], file := file }
  | next {s : JSONStorage} (op : Op) :
      ReachableVia parse allowed s → allowed s op → ReachableVia parse allowed (step parse op s)

/-- States reachable from an empty registry by any sequence of calls. -/
def Reachable (parse : String → Option Int) (s : JSONStorage) : Prop :=
  ReachableVia parse (fun _ _ => True) s

/-! ## Conditions on calls, repeated calls and concrete inputs -/

/-- Calls that do not lower a stored device limit (every call but such an `UpdateUser`). -/
def NoLowering (s : JSONStorage) (op : Op) : Prop :=
  match op with
  | .updateUser id req _ =>
    ∀ u d, mapGet s.users id = some u → req.DeviceLimit = some d → u.DeviceLimit ≤ d
  | _ => True

/-- Calls that do not create an account with a negative device limit. -/
def NonNegativeLimit (op : Op) : Prop :=
  match op with
  | .createUser req _ _ _ => 0 ≤ req.DeviceLimit
  | _ => True

/-- Repeated calls of `ConnectDevice` with the same account and device, one for every
element of `calls`, each with its own clock reading and write outcome. -/
def connectRepeatedly (s : JSONStorage) (userID deviceID : String)
    (calls : List (Int × Bool)) : JSONStorage :=
  calls.foldl (fun st c => (UserService.ConnectDevice st userID deviceID c.1 c.2).2) s

/-- Repeated calls of `UpdateTrafficUsage` on one account, one for every element of
`calls`, each with its own delta and write outcome. -/
def addTrafficRepeatedly (s : JSONStorage) (userID : String) (calls : List (Int × Bool)) :
    JSONStorage :=
  calls.foldl (fun st c => (UserService.UpdateTrafficUsage st userID c.1 c.2).2) s

/-- A stand-in for `json.Unmarshal` that decodes the empty object and rejects the rest. -/
def unmarshalFixed (content : String) : Except Error Unit × UserMap :=
  if content = "{}" then (.ok (), []) else (.error .unmarshalFailed, [])

/-- A stand-in for `time.Parse(time.RFC3339, _)` that reads one timestamp. -/
def parseFixed (text : String) : Option Int :=
  if text = "2030-01-01T00:00:00Z" then some 1893456000 else none

/-- A create request for the account `alice` with the given device limit. -/
def aliceRequest (deviceLimit : Int) : CreateUserRequest :=
  { Username := "alice", Password := "secret", ExpiresAt := "2030-01-01T00:00:00Z",
    TrafficLimit := 1000, DeviceLimit := deviceLimit }

/-- An account that expires at instant 100. -/
def userExpiringAt100 : User :=
  { ID := "id-1", Username := "alice", Password := "secret", CreatedAt := 0,
    ExpiresAt := 100, TrafficLimit := 1000, TrafficUsed := 0, DeviceLimit := 1,
    ConnectedDevices := [], IsActive := true }

/-- The registry after `alice` was created with device limit 1. -/
def stateAlice : JSONStorage :=
  run parseFixed [.createUser (aliceRequest 1) "id-1" 0 true] emptyStorage

/-- The registry after `alice` was created with device limit 2 and connected `d1`. -/
def stateAliceConnected : JSONStorage :=
  run parseFixed
    [.createUser (aliceRequest 2) "id-1" 0 true, .connectDevice "id-1" "d1" 5 true]
    emptyStorage

/-- The registry after `alice` connected `d1` and was then switched to inactive. -/
def stateAliceInactive : JSONStorage :=
  run parseFixed
    [.createUser (aliceRequest 2) "id-1" 0 true, .connectDevice "id-1" "d1" 5 true,
      .updateUser "id-1"
        { ExpiresAt := none, TrafficLimit := none, DeviceLimit := none, IsActive := some false }
        true]
    emptyStorage

/-- The registry after `alice` was created with device limit -1. -/
def stateNegativeLimit : JSONStorage :=
  run parseFixed [.createUser (aliceRequest (-1)) "id-1" 0 true] emptyStorage

/-- A configuration service with the default paths and server name of `main`. -/
def serviceExample : ConfigService :=
  { configPath := "configs/sing-box.json", templatePath := "configs/sing-box-template.json",
    serverName := "example.com" }

/-- The registry after `alice` was created and then connected `d1` with a failing write:
the map has `d1`, the file does not. -/
def stateStaleFile : JSONStorage :=
  run parseFixed
    [.createUser (aliceRequest 2) "id-1" 0 true, .connectDevice "id-1" "d1" 5 false]
    emptyStorage

/-! ### Interleaved `CreateUser` calls

`UserService.CreateUser` enters the registry twice: `GetUserByUsername` holds the read
lock for the username check, and `storage.CreateUser` holds the write lock for the
insertion. Between the two the call holds no lock, so steps of other calls may come in
between. A call is split at that point. -/

/-- The arguments and the environment of one `CreateUser` call. -/
structure CreateCall where
  req : CreateUserRequest
  newID : String
  now : Int
  w : Bool
deriving DecidableEq, Repr

/-- Where a `CreateUser` call stands: not yet started, past the username check with the
record built and the insertion still to come, or returned. -/
inductive CallState where
  | ready (call : CreateCall)
  | checked (user : User) (w : Bool)
  | finished (result : Except Error User)
deriving DecidableEq

/-- The first part of `UserService.CreateUser`: the username check in its critical section,
then the parsing of the expiry and the building of the record. -/
def createCheck (parse : String → Option Int) (s : JSONStorage) (call : CreateCall) :
    CallState :=
  match s.GetUserByUsername call.req.Username with
  | .ok _ => .finished (.error (.usernameExists call.req.Username))
  | .error _ =>
    match parse call.req.ExpiresAt with
    | none => .finished (.error .invalidExpiresAt)
    | some expiresAt =>
      .checked
        { ID := call.newID
          Username := call.req.Username
          Password := call.req.Password
          CreatedAt := call.now
          ExpiresAt := expiresAt
          TrafficLimit := call.req.TrafficLimit
          TrafficUsed := 0
          DeviceLimit := call.req.DeviceLimit
          ConnectedDevices := []
          IsActive := true }
        call.w

/-- The second part of `UserService.CreateUser`: `storage.CreateUser` in its critical
section, and the return. -/
def createInsert (s : JSONStorage) (user : User) (w : Bool) : CallState × JSONStorage :=
  match s.CreateUser user w with
  | (.error e, s1) => (.finished (.error e), s1)
  | (.ok _, s1) => (.finished (.ok user), s1)

/-- The next critical section of a call, on the registry as it is at that moment. -/
def stepCall (parse : String → Option Int) (s : JSONStorage) (c : CallState) :
    CallState × JSONStorage :=
  match c with
  | .ready call => (createCheck parse s call, s)
  | .checked user w => createInsert s user w
  | .finished result => (.finished result, s)

/-- The calls in progress and the registry they share. -/
structure Config where
  calls : List CallState
  storage : JSONStorage
deriving DecidableEq

/-- The scheduler lets call number `i` take its next step. -/
def scheduleCall (parse : String → Option Int) (cfg : Config) (i : Nat) : Config :=
  match cfg.calls[i]? with
  | none => cfg
  | some c =>
    { calls := cfg.calls.set i (stepCall parse cfg.storage c).1
      storage := (stepCall parse cfg.storage c).2 }

/-- An interleaving: the calls take their steps in the order `order` names them. -/
def runSchedule (parse : String → Option Int) (cfg : Config) (order : List Nat) : Config :=
  order.foldl (scheduleCall parse) cfg

/-- Two `CreateUser` calls for the username `alice`, with different generated ids, on the
empty registry. -/
def twoAliceCalls : Config :=
  { calls :=
      [ .ready { req := aliceRequest 1, newID := "id-1", now := 0, w := true },
        .ready { req := aliceRequest 1, newID := "id-2", now := 0, w := true } ]
    storage := emptyStorage }

/-! ### The registry with its pointers

`GetUser`, `GetUserByUsername` and `ListUsers` return the `*models.User` values that the
map holds. For what a caller can do with such a value, the map is kept as it is in the
code, from keys to addresses, next to the records the addresses point to. -/

/-- The map `users map[string]*models.User` with the records behind its pointers: an
address is a position in `heap`. -/
structure LiveStorage where
  heap : List User
  users : List (String × Nat)
deriving DecidableEq, Repr

namespace LiveStorage

/-- The record behind a pointer. -/
def deref (s : LiveStorage) (p : Nat) : Option User :=
  s.heap[p]?

/-- Function `GetUser` with its pointer result: the pointer the map holds for the id. -/
def GetUser (s : LiveStorage) (id : String) : Except Error Nat :=
  match s.users.find? (fun e => e.1 == id) with
  | none => .error (.idNotFound id)
  | some e => .ok e.2

/-- Function `GetUserByUsername` with its pointer result: the first pointer in the map
whose record has the name. -/
def GetUserByUsername (s : LiveStorage) (username : String) : Except Error Nat :=
  match s.users.find?
      (fun e =>
        match s.deref e.2 with
        | some user => user.Username == username
        | none => false) with
  | some e => .ok e.2
  | none => .error (.usernameNotFound username)

/-- Function `ListUsers` with its pointer results. -/
def ListUsers (s : LiveStorage) : List Nat :=
  s.users.foldl (fun users e => users ++ [e.2]) []

/-- An assignment by a caller through a pointer it holds, such as `user.IsActive = false`:
the record behind `p` becomes `v`. No function of the registry is called. -/
def assign (s : LiveStorage) (p : Nat) (v : User) : LiveStorage :=
  { s with heap := s.heap.set p v }

/-- The map by value: every key with the record behind its pointer. -/
def view (s : LiveStorage) : UserMap :=
  s.users.filterMap (fun e => (s.deref e.2).map (fun user => (e.1, user)))

end LiveStorage

/-- The registry holding `alice` at address 0. -/
def liveAlice : LiveStorage :=
  { heap :=
      [ { ID := "id-1", Username := "alice", Password := "secret", CreatedAt := 0,
          ExpiresAt := 1893456000, TrafficLimit := 1000, TrafficUsed := 0, DeviceLimit := 1,
          ConnectedDevices := [], IsActive := true } ]
    users := [("id-1", 0)] }

/-! ## Lemmas on the map and on the loops -/

theorem mapGet_mapSet_self (m : UserMap) (k : String) (v : User) :
    mapGet (mapSet m k v) k = some v := by
  induction m with
  | nil => simp [mapSet, mapGet]
  | cons p rest ih =>
    obtain ⟨k1, v1⟩ := p
    by_cases h : k1 = k
    · simp [mapSet, mapGet, h]
    · simp [mapSet, mapGet, h, ih]

theorem mapGet_mapSet_ne (m : UserMap) (k k2 : String) (v : User) (hne : k ≠ k2) :
    mapGet (mapSet m k v) k2 = mapGet m k2 := by
  induction m with
  | nil => simp [mapSet, mapGet, hne]
  | cons p rest ih =>
    obtain ⟨k1, v1⟩ := p
    by_cases h : k1 = k
    · subst h; simp [mapSet, mapGet, hne]
    · by_cases h2 : k1 = k2
      · subst h2; simp [mapSet, mapGet, h]
      · simp [mapSet, mapGet, h, h2, ih]

theorem mem_of_mapGet {m : UserMap} {k : String} {u : User} (h : mapGet m k = some u) :
    (k, u) ∈ m := by
  induction m with
  | nil => simp [mapGet] at h
  | cons p rest ih =>
    obtain ⟨k1, v1⟩ := p
    by_cases hk : k1 = k
    · simp [mapGet, hk] at h; simp [hk, h]
    · simp [mapGet, hk] at h; simp [ih h]

theorem mapGet_none_iff (m : UserMap) (k : String) :
    mapGet m k = none ↔ ∀ p ∈ m, p.1 ≠ k := by
  induction m with
  | nil => simp [mapGet]
  | cons p rest ih =>
    obtain ⟨k1, v1⟩ := p
    by_cases hk : k1 = k
    · simp [mapGet, hk]
    · simp [mapGet, hk, ih]

theorem mapSet_of_mapGet_none {m : UserMap} {k : String} (v : User) (h : mapGet m k = none) :
    mapSet m k v = m ++ [(k, v)] := by
  induction m with
  | nil => simp [mapSet]
  | cons p rest ih =>
    obtain ⟨k1, v1⟩ := p
    by_cases hk : k1 = k
    · simp [mapGet, hk] at h
    · simp [mapGet, hk] at h; simp [mapSet, hk, ih h]

theorem mem_mapSet {m : UserMap} {k : String} {v : User} {p : String × User}
    (h : p ∈ mapSet m k v) : p ∈ m ∨ p = (k, v) := by
  induction m with
  | nil => simp [mapSet] at h; exact Or.inr h
  | cons q rest ih =>
    obtain ⟨k1, v1⟩ := q
    by_cases hk : k1 = k
    · simp [mapSet, hk] at h
      rcases h with h | h
      · exact Or.inr h
      · exact Or.inl (List.mem_cons_of_mem _ h)
    · simp [mapSet, hk] at h
      rcases h with h | h
      · exact Or.inl (by simp [h])
      · rcases ih h with h2 | h2
        · exact Or.inl (List.mem_cons_of_mem _ h2)
        · exact Or.inr h2

theorem map_mapSet_of_mapGet {β : Type} (f : User → β) {m : UserMap} {k : String} {u v : User}
    (h : mapGet m k = some u) (hf : f v = f u) :
    (mapSet m k v).map (fun p => f p.2) = m.map (fun p => f p.2) := by
  induction m with
  | nil => simp [mapGet] at h
  | cons q rest ih =>
    obtain ⟨k1, v1⟩ := q
    by_cases hk : k1 = k
    · simp [mapGet, hk] at h; simp [mapSet, hk, h, hf]
    · simp [mapGet, hk] at h; simp [mapSet, hk, ih h]

theorem map_fst_mapSet_of_mapGet {m : UserMap} {k : String} {u v : User}
    (h : mapGet m k = some u) :
    (mapSet m k v).map (fun p => p.1) = m.map (fun p => p.1) := by
  induction m with
  | nil => simp [mapGet] at h
  | cons q rest ih =>
    obtain ⟨k1, v1⟩ := q
    by_cases hk : k1 = k
    · simp [mapSet, hk]
    · simp [mapGet, hk] at h; simp [mapSet, hk, ih h]

theorem mapDelete_sublist (m : UserMap) (k : String) : List.Sublist (mapDelete m k) m := by
  unfold mapDelete; exact List.filter_sublist m

theorem foldl_mapDelete_sublist (ids : List String) (m : UserMap) :
    List.Sublist (ids.foldl mapDelete m) m := by
  induction ids generalizing m with
  | nil => simp
  | cons k ks ih => exact (ih (mapDelete m k)).trans (mapDelete_sublist m k)

@[simp] theorem saveToFile_users (s : JSONStorage) (w : Bool) :
    (s.saveToFile w).2.users = s.users := by
  cases w <;> simp [JSONStorage.saveToFile]

theorem getUserByUsername_error_iff (s : JSONStorage) (username : String) :
    isError (s.GetUserByUsername username) = true ↔ ∀ p ∈ s.users, p.2.Username ≠ username := by
  unfold JSONStorage.GetUserByUsername
  split
  · rename_i p hp
    have h1 := List.find?_some hp
    have h2 := List.mem_of_find?_eq_some hp
    simp only [isError, Bool.false_eq_true, false_iff]
    intro hall
    exact hall p h2 (by simpa using h1)
  · rename_i hp
    simp only [isError, true_iff]
    intro p hmem
    have := List.find?_eq_none.mp hp p hmem
    simpa using this

theorem foldl_append_singleton_map {α β : Type} (f : α → β) (l : List α) (acc : List β) :
    l.foldl (fun r x => r ++ [f x]) acc = acc ++ l.map f := by
  induction l generalizing acc with
  | nil => simp
  | cons x xs ih => simp [List.foldl_cons, ih]

theorem foldl_append_if_filter {α : Type} (p : α → Bool) (l : List α) (acc : List α) :
    l.foldl (fun r x => if p x then r ++ [x] else r) acc = acc ++ l.filter p := by
  induction l generalizing acc with
  | nil => simp
  | cons x xs ih =>
    by_cases hx : p x = true
    · simp [List.foldl_cons, ih, hx]
    · simp [List.foldl_cons, ih, hx]

theorem listUsers_eq_map (s : JSONStorage) : s.ListUsers = s.users.map (fun p => p.2) := by
  unfold JSONStorage.ListUsers
  rw [foldl_append_singleton_map]; simp

theorem activeUsers_eq_filter (users : List User) (now : Int) :
    ConfigService.activeUsers users now =
      users.filter (fun u => u.IsActive && !u.IsExpired now && !u.IsTrafficExceeded) := by
  unfold ConfigService.activeUsers
  rw [foldl_append_if_filter]; simp

theorem buildTrojanUsers_eq_map (cs : ConfigService) (users : List User) :
    cs.buildTrojanUsers users =
      users.map (fun u => ({ Name := u.Username, Password := u.Password, UUID := "" } : UserConfig)) := by
  unfold ConfigService.buildTrojanUsers
  rw [foldl_append_singleton_map]; simp

theorem buildVlessUsers_eq_map (cs : ConfigService) (users : List User) :
    cs.buildVlessUsers users =
      users.map (fun u => ({ Name := u.Username, Password := "", UUID := u.ID } : UserConfig)) := by
  unfold ConfigService.buildVlessUsers
  rw [foldl_append_singleton_map]; simp

theorem createUser_users (parse : String → Option Int) (s : JSONStorage)
    (req : CreateUserRequest) (newID : String) (now : Int) (w : Bool) :
    (UserService.CreateUser parse s req newID now w).2.users = s.users ∨
    ∃ t, parse req.ExpiresAt = some t ∧ mapGet s.users newID = none ∧
      (∀ p ∈ s.users, p.2.Username ≠ req.Username) ∧
      (UserService.CreateUser parse s req newID now w).2.users =
        s.users ++ [(newID,
          { ID := newID, Username := req.Username, Password := req.Password,
            CreatedAt := now, ExpiresAt := t, TrafficLimit := req.TrafficLimit,
            TrafficUsed := 0, DeviceLimit := req.DeviceLimit, ConnectedDevices := [],
            IsActive := true })] := by
  cases hname : s.GetUserByUsername req.Username with
  | ok u => left; simp [UserService.CreateUser, hname]
  | error e =>
    have hfresh : ∀ p ∈ s.users, p.2.Username ≠ req.Username :=
      (getUserByUsername_error_iff s req.Username).mp (by simp [hname, isError])
    cases hparse : parse req.ExpiresAt with
    | none => left; simp [UserService.CreateUser, hname, hparse]
    | some t =>
      cases hid : mapGet s.users newID with
      | some u0 => left; simp [UserService.CreateUser, hname, hparse, JSONStorage.CreateUser, hid]
      | none =>
        right
        refine ⟨t, rfl, rfl, hfresh, ?_⟩
        cases w <;>
          simp [UserService.CreateUser, hname, hparse, JSONStorage.CreateUser, hid,
            JSONStorage.saveToFile, mapSet_of_mapGet_none]

theorem updateUser_users (parse : String → Option Int) (s : JSONStorage) (id : String)
    (req : UpdateUserRequest) (w : Bool) :
    (UserService.UpdateUser parse s id req w).2.users = s.users ∨
    ∃ u e, mapGet s.users id = some u ∧
      (UserService.UpdateUser parse s id req w).2.users =
        mapSet s.users id (UserService.applyPatch u e req) := by
  cases hid : mapGet s.users id with
  | none => left; simp [UserService.UpdateUser, JSONStorage.GetUser, hid]
  | some u =>
    cases hreq : req.ExpiresAt with
    | none =>
      right
      refine ⟨u, none, rfl, ?_⟩
      cases w <;>
        simp [UserService.UpdateUser, JSONStorage.GetUser, hid, hreq, JSONStorage.UpdateUser,
          JSONStorage.saveToFile]
    | some text =>
      cases hparse : parse text with
      | none => left; simp [UserService.UpdateUser, JSONStorage.GetUser, hid, hreq, hparse]
      | some t =>
        right
        refine ⟨u, some t, rfl, ?_⟩
        cases w <;>
          simp [UserService.UpdateUser, JSONStorage.GetUser, hid, hreq, hparse,
            JSONStorage.UpdateUser, JSONStorage.saveToFile]

theorem any_beq_iff_mem (l : List String) (d : String) :
    l.any (fun device => device == d) = true ↔ d ∈ l := by
  simp [List.any_eq_true]

theorem connectDevice_users (s : JSONStorage) (userID deviceID : String) (now : Int)
    (w : Bool) :
    (UserService.ConnectDevice s userID deviceID now w).2.users = s.users ∨
    ∃ u, mapGet s.users userID = some u ∧ deviceID ∉ u.ConnectedDevices ∧
      (u.ConnectedDevices.length : Int) < u.DeviceLimit ∧
      (UserService.ConnectDevice s userID deviceID now w).2.users =
        mapSet s.users userID
          { u with ConnectedDevices := u.ConnectedDevices ++ [deviceID] } := by
  cases hid : mapGet s.users userID with
  | none => left; simp [UserService.ConnectDevice, JSONStorage.GetUser, hid]
  | some u =>
    by_cases hcan : u.CanConnect now deviceID = true
    · by_cases hmem : deviceID ∈ u.ConnectedDevices
      · left
        have hany := (any_beq_iff_mem u.ConnectedDevices deviceID).mpr hmem
        simp [UserService.ConnectDevice, JSONStorage.GetUser, hid, hcan,
          JSONStorage.AddConnectedDevice, hany]
      · right
        have hany : u.ConnectedDevices.any (fun device => device == deviceID) = false := by
          rw [Bool.eq_false_iff]; intro h; exact hmem ((any_beq_iff_mem _ _).mp h)
        have hlim : (u.ConnectedDevices.length : Int) < u.DeviceLimit := by
          unfold User.CanConnect at hcan
          split at hcan
          · simp at hcan
          · rw [hany] at hcan; simpa using hcan
        refine ⟨u, rfl, hmem, hlim, ?_⟩
        cases w <;>
          simp [UserService.ConnectDevice, JSONStorage.GetUser, hid, hcan,
            JSONStorage.AddConnectedDevice, hany, JSONStorage.saveToFile]
    · left
      simp [UserService.ConnectDevice, JSONStorage.GetUser, hid, hcan]

theorem disconnectDevice_users (s : JSONStorage) (userID deviceID : String) (w : Bool) :
    (UserService.DisconnectDevice s userID deviceID w).2.users = s.users ∨
    ∃ u, mapGet s.users userID = some u ∧
      (UserService.DisconnectDevice s userID deviceID w).2.users =
        mapSet s.users userID
          { u with ConnectedDevices := removeDevice u.ConnectedDevices deviceID } := by
  cases hid : mapGet s.users userID with
  | none => left; simp [UserService.DisconnectDevice, JSONStorage.RemoveConnectedDevice, hid]
  | some u =>
    right
    refine ⟨u, rfl, ?_⟩
    simp [UserService.DisconnectDevice, JSONStorage.RemoveConnectedDevice, hid]

theorem updateTrafficUsage_users (s : JSONStorage) (userID : String) (bytesUsed : Int)
    (w : Bool) :
    (UserService.UpdateTrafficUsage s userID bytesUsed w).2.users = s.users ∨
    ∃ u, mapGet s.users userID = some u ∧
      (UserService.UpdateTrafficUsage s userID bytesUsed w).2.users =
        mapSet s.users userID
          { u with TrafficUsed := wrapInt64 (u.TrafficUsed + bytesUsed) } := by
  cases hid : mapGet s.users userID with
  | none => left; simp [UserService.UpdateTrafficUsage, JSONStorage.UpdateTrafficUsage, hid]
  | some u =>
    right
    refine ⟨u, rfl, ?_⟩
    simp [UserService.UpdateTrafficUsage, JSONStorage.UpdateTrafficUsage, hid]

theorem deleteUser_users (s : JSONStorage) (id : String) (w : Bool) :
    List.Sublist (UserService.DeleteUser s id w).2.users s.users := by
  cases hid : mapGet s.users id with
  | none => simp [UserService.DeleteUser, JSONStorage.DeleteUser, hid]
  | some u =>
    simp [UserService.DeleteUser, JSONStorage.DeleteUser, hid, mapDelete_sublist]

theorem cleanupExpiredUsers_users (s : JSONStorage) (now : Int) (w : Bool) :
    List.Sublist (s.cleanupExpiredUsers now w).users s.users := by
  unfold JSONStorage.cleanupExpiredUsers
  simp only
  split
  · simp [foldl_mapDelete_sublist]
  · simp [foldl_mapDelete_sublist]

theorem removeDevice_eq_erase (l : List String) (d : String) : removeDevice l d = l.erase d := by
  induction l with
  | nil => simp [removeDevice]
  | cons x xs ih =>
    by_cases h : x = d
    · simp [removeDevice, h]
    · simp [removeDevice, h, ih, List.erase_cons_tail]

theorem applyPatch_Username (u : User) (e : Option Int) (req : UpdateUserRequest) :
    (UserService.applyPatch u e req).Username = u.Username := by
  unfold UserService.applyPatch
  cases e <;> cases req.TrafficLimit <;> cases req.DeviceLimit <;> cases req.IsActive <;> rfl

theorem applyPatch_ConnectedDevices (u : User) (e : Option Int) (req : UpdateUserRequest) :
    (UserService.applyPatch u e req).ConnectedDevices = u.ConnectedDevices := by
  unfold UserService.applyPatch
  cases e <;> cases req.TrafficLimit <;> cases req.DeviceLimit <;> cases req.IsActive <;> rfl

theorem applyPatch_DeviceLimit (u : User) (e : Option Int) (req : UpdateUserRequest) :
    (UserService.applyPatch u e req).DeviceLimit = req.DeviceLimit.getD u.DeviceLimit := by
  unfold UserService.applyPatch
  cases e <;> cases req.TrafficLimit <;> cases req.DeviceLimit <;> cases req.IsActive <;> rfl

theorem names_nodup_mapSet {m : UserMap} {k : String} {u v : User}
    (h : mapGet m k = some u) (hv : v.Username = u.Username)
    (hm : (m.map (fun p => p.1)).Nodup ∧ (m.map (fun p => p.2.Username)).Nodup) :
    ((mapSet m k v).map (fun p => p.1)).Nodup ∧
      ((mapSet m k v).map (fun p => p.2.Username)).Nodup := by
  rw [map_fst_mapSet_of_mapGet h, map_mapSet_of_mapGet (fun x => x.Username) h hv]
  exact hm

theorem names_nodup_sublist {m m2 : UserMap} (hs : List.Sublist m2 m)
    (hm : (m.map (fun p => p.1)).Nodup ∧ (m.map (fun p => p.2.Username)).Nodup) :
    (m2.map (fun p => p.1)).Nodup ∧ (m2.map (fun p => p.2.Username)).Nodup :=
  ⟨hm.1.sublist (hs.map _), hm.2.sublist (hs.map _)⟩

theorem names_nodup_step (parse : String → Option Int) (op : Op) (s : JSONStorage)
    (hm : (s.users.map (fun p => p.1)).Nodup ∧ (s.users.map (fun p => p.2.Username)).Nodup) :
    ((step parse op s).users.map (fun p => p.1)).Nodup ∧
      ((step parse op s).users.map (fun p => p.2.Username)).Nodup := by
  cases op with
  | createUser req newID now w =>
    rcases createUser_users parse s req newID now w with h | ⟨t, _, hid, hname, h⟩
    · simp only [step, h]; exact hm
    · simp only [step, h, List.map_append, List.map_cons, List.map_nil]
      constructor
      · refine List.Nodup.append hm.1 (List.nodup_singleton _) ?_
        simp only [List.disjoint_singleton, List.mem_map, not_exists, not_and]
        intro p hp
        exact (mapGet_none_iff s.users newID).mp hid p hp
      · refine List.Nodup.append hm.2 (List.nodup_singleton _) ?_
        simp only [List.disjoint_singleton, List.mem_map, not_exists, not_and]
        intro p hp
        exact hname p hp
  | updateUser id req w =>
    rcases updateUser_users parse s id req w with h | ⟨u, e, hid, h⟩
    · simp only [step, h]; exact hm
    · simp only [step, h]
      exact names_nodup_mapSet hid (applyPatch_Username u e req) hm
  | deleteUser id w => exact names_nodup_sublist (deleteUser_users s id w) hm
  | connectDevice userID deviceID now w =>
    rcases connectDevice_users s userID deviceID now w with h | ⟨u, hid, _, _, h⟩
    · simp only [step, h]; exact hm
    · simp only [step, h]
      exact names_nodup_mapSet hid rfl hm
  | disconnectDevice userID deviceID w =>
    rcases disconnectDevice_users s userID deviceID w with h | ⟨u, hid, h⟩
    · simp only [step, h]; exact hm
    · simp only [step, h]
      exact names_nodup_mapSet hid rfl hm
  | updateTrafficUsage userID bytesUsed w =>
    rcases updateTrafficUsage_users s userID bytesUsed w with h | ⟨u, hid, h⟩
    · simp only [step, h]; exact hm
    · simp only [step, h]
      exact names_nodup_mapSet hid rfl hm
  | cleanupExpiredUsers now w => exact names_nodup_sublist (cleanupExpiredUsers_users s now w) hm

theorem names_nodup_reachable (parse : String → Option Int)
    (allowed : JSONStorage → Op → Prop) (s : JSONStorage)
    (h : ReachableVia parse allowed s) :
    (s.users.map (fun p => p.1)).Nodup ∧ (s.users.map (fun p => p.2.Username)).Nodup := by
  induction h with
  | init file => simp
  | next op _ _ ih => exact names_nodup_step parse op _ ih

theorem createUser_existing_username (parse : String → Option Int) (s : JSONStorage)
    (req : CreateUserRequest) (newID : String) (now : Int) (w : Bool)
    (h : ∃ p ∈ s.users, p.2.Username = req.Username) :
    UserService.CreateUser parse s req newID now w =
      (.error (.usernameExists req.Username), s) := by
  cases hname : s.GetUserByUsername req.Username with
  | ok u => simp [UserService.CreateUser, hname]
  | error e =>
    exfalso
    obtain ⟨p, hp, hpn⟩ := h
    exact (getUserByUsername_error_iff s req.Username).mp (by simp [hname, isError]) p hp hpn

theorem forall_mem_mapSet (P : User → Prop) {m : UserMap} {k : String} {v : User}
    (hm : ∀ p ∈ m, P p.2) (hv : P v) : ∀ p ∈ mapSet m k v, P p.2 := by
  intro p hp
  rcases mem_mapSet hp with h | h
  · exact hm p h
  · rw [h]; exact hv

theorem devices_nodup_step (parse : String → Option Int) (op : Op) (s : JSONStorage)
    (hm : ∀ p ∈ s.users, p.2.ConnectedDevices.Nodup) :
    ∀ p ∈ (step parse op s).users, p.2.ConnectedDevices.Nodup := by
  cases op with
  | createUser req newID now w =>
    rcases createUser_users parse s req newID now w with h | ⟨t, _, _, _, h⟩
    · simp only [step, h]; exact hm
    · simp only [step, h]
      intro p hp
      rcases List.mem_append.mp hp with h1 | h1
      · exact hm p h1
      · rw [List.mem_singleton.mp h1]; exact List.nodup_nil
  | updateUser id req w =>
    rcases updateUser_users parse s id req w with h | ⟨u, e, hid, h⟩
    · simp only [step, h]; exact hm
    · simp only [step, h]
      refine forall_mem_mapSet (fun x => x.ConnectedDevices.Nodup) hm ?_
      beta_reduce
      rw [applyPatch_ConnectedDevices]
      exact hm _ (mem_of_mapGet hid)
  | deleteUser id w =>
    intro p hp
    exact hm p ((deleteUser_users s id w).subset hp)
  | connectDevice userID deviceID now w =>
    rcases connectDevice_users s userID deviceID now w with h | ⟨u, hid, hnew, _, h⟩
    · simp only [step, h]; exact hm
    · simp only [step, h]
      refine forall_mem_mapSet (fun x => x.ConnectedDevices.Nodup) hm ?_
      refine List.Nodup.append (hm _ (mem_of_mapGet hid)) (List.nodup_singleton _) ?_
      simpa using hnew
  | disconnectDevice userID deviceID w =>
    rcases disconnectDevice_users s userID deviceID w with h | ⟨u, hid, h⟩
    · simp only [step, h]; exact hm
    · simp only [step, h]
      refine forall_mem_mapSet (fun x => x.ConnectedDevices.Nodup) hm ?_
      simp only [removeDevice_eq_erase]
      exact (hm _ (mem_of_mapGet hid)).erase deviceID
  | updateTrafficUsage userID bytesUsed w =>
    rcases updateTrafficUsage_users s userID bytesUsed w with h | ⟨u, hid, h⟩
    · simp only [step, h]; exact hm
    · simp only [step, h]
      exact forall_mem_mapSet (fun x => x.ConnectedDevices.Nodup) hm (hm _ (mem_of_mapGet hid))
  | cleanupExpiredUsers now w =>
    intro p hp
    exact hm p ((cleanupExpiredUsers_users s now w).subset hp)

theorem devices_nodup_reachable (parse : String → Option Int)
    (allowed : JSONStorage → Op → Prop) (s : JSONStorage)
    (h : ReachableVia parse allowed s) : ∀ p ∈ s.users, p.2.ConnectedDevices.Nodup := by
  induction h with
  | init file => simp
  | next op _ _ ih => exact devices_nodup_step parse op _ ih

theorem devices_le_limit_step (parse : String → Option Int) (op : Op) (s : JSONStorage)
    (hlow : NoLowering s op) (hnn : NonNegativeLimit op)
    (hm : ∀ p ∈ s.users, (p.2.ConnectedDevices.length : Int) ≤ p.2.DeviceLimit) :
    ∀ p ∈ (step parse op s).users, (p.2.ConnectedDevices.length : Int) ≤ p.2.DeviceLimit := by
  cases op with
  | createUser req newID now w =>
    rcases createUser_users parse s req newID now w with h | ⟨t, _, _, _, h⟩
    · simp only [step, h]; exact hm
    · simp only [step, h]
      intro p hp
      rcases List.mem_append.mp hp with h1 | h1
      · exact hm p h1
      · rw [List.mem_singleton.mp h1]
        simpa [NonNegativeLimit] using hnn
  | updateUser id req w =>
    rcases updateUser_users parse s id req w with h | ⟨u, e, hid, h⟩
    · simp only [step, h]; exact hm
    · simp only [step, h]
      refine forall_mem_mapSet (fun x => (x.ConnectedDevices.length : Int) ≤ x.DeviceLimit) hm ?_
      beta_reduce
      rw [applyPatch_ConnectedDevices, applyPatch_DeviceLimit]
      have hu := hm _ (mem_of_mapGet hid)
      cases hd : req.DeviceLimit with
      | none => simpa using hu
      | some d =>
        have := hlow u d hid hd
        simp only [Option.getD_some]
        exact le_trans hu this
  | deleteUser id w =>
    intro p hp
    exact hm p ((deleteUser_users s id w).subset hp)
  | connectDevice userID deviceID now w =>
    rcases connectDevice_users s userID deviceID now w with h | ⟨u, hid, _, hlt, h⟩
    · simp only [step, h]; exact hm
    · simp only [step, h]
      refine forall_mem_mapSet (fun x => (x.ConnectedDevices.length : Int) ≤ x.DeviceLimit) hm ?_
      simp only [List.length_append, List.length_singleton]
      push_cast
      omega
  | disconnectDevice userID deviceID w =>
    rcases disconnectDevice_users s userID deviceID w with h | ⟨u, hid, h⟩
    · simp only [step, h]; exact hm
    · simp only [step, h]
      refine forall_mem_mapSet (fun x => (x.ConnectedDevices.length : Int) ≤ x.DeviceLimit) hm ?_
      have hu := hm _ (mem_of_mapGet hid)
      simp only [removeDevice_eq_erase]
      have hlen := List.length_erase_le deviceID u.ConnectedDevices
      have : ((u.ConnectedDevices.erase deviceID).length : Int) ≤ u.ConnectedDevices.length := by
        exact_mod_cast hlen
      exact le_trans this hu
  | updateTrafficUsage userID bytesUsed w =>
    rcases updateTrafficUsage_users s userID bytesUsed w with h | ⟨u, hid, h⟩
    · simp only [step, h]; exact hm
    · simp only [step, h]
      exact forall_mem_mapSet (fun x => (x.ConnectedDevices.length : Int) ≤ x.DeviceLimit) hm (hm _ (mem_of_mapGet hid))
  | cleanupExpiredUsers now w =>
    intro p hp
    exact hm p ((cleanupExpiredUsers_users s now w).subset hp)

theorem canConnect_false_of_ineligible (u : User) (now : Int) (deviceID : String)
    (hel : (u.IsActive && !u.IsExpired now && !u.IsTrafficExceeded) = false) :
    u.CanConnect now deviceID = false := by
  unfold User.CanConnect
  rw [if_pos]
  revert hel
  cases u.IsActive <;> cases u.IsExpired now <;> cases u.IsTrafficExceeded <;> simp

theorem connectDevice_ineligible (s : JSONStorage) (userID deviceID : String) (now : Int)
    (w : Bool) (u : User) (hget : mapGet s.users userID = some u)
    (hel : (u.IsActive && !u.IsExpired now && !u.IsTrafficExceeded) = false) :
    UserService.ConnectDevice s userID deviceID now w = (.error .cannotConnect, s) := by
  have hcan := canConnect_false_of_ineligible u now deviceID hel
  simp [UserService.ConnectDevice, JSONStorage.GetUser, hget, hcan]

theorem connectDevice_of_member (s : JSONStorage) (userID deviceID : String) (now : Int)
    (w : Bool) (u : User) (hget : mapGet s.users userID = some u)
    (hmem : deviceID ∈ u.ConnectedDevices) :
    UserService.ConnectDevice s userID deviceID now w =
      (if u.IsActive && !u.IsExpired now && !u.IsTrafficExceeded then .ok ()
        else .error .cannotConnect, s) := by
  have hany := (any_beq_iff_mem u.ConnectedDevices deviceID).mpr hmem
  by_cases hel : (u.IsActive && !u.IsExpired now && !u.IsTrafficExceeded) = true
  · have hcan : u.CanConnect now deviceID = true := by
      unfold User.CanConnect
      simp only [Bool.and_eq_true, Bool.not_eq_true', Bool.not_eq_eq_eq_not,
        Bool.not_true] at hel
      simp [hel.1.1, hel.1.2, hel.2, hany]
    simp [UserService.ConnectDevice, JSONStorage.GetUser, hget, hcan,
      JSONStorage.AddConnectedDevice, hany, hel]
  · have hel2 : (u.IsActive && !u.IsExpired now && !u.IsTrafficExceeded) = false := by
      simpa using hel
    rw [connectDevice_ineligible s userID deviceID now w u hget hel2, hel2]
    simp

theorem removeDevice_eq_filter {l : List String} (d : String) (h : l.Nodup) :
    removeDevice l d = l.filter (fun x => x != d) := by
  rw [removeDevice_eq_erase]
  exact List.Nodup.erase_eq_filter h d

theorem wrapInt64_of_range (x : Int) (h1 : -2 ^ 63 ≤ x) (h2 : x < 2 ^ 63) :
    wrapInt64 x = x := by
  unfold wrapInt64
  omega

theorem mapGet_mapDelete (m : UserMap) (k id : String) :
    mapGet (mapDelete m k) id = if id = k then none else mapGet m id := by
  induction m with
  | nil => simp [mapDelete, mapGet]
  | cons p rest ih =>
    obtain ⟨k1, v1⟩ := p
    unfold mapDelete at ih ⊢
    by_cases h1 : k1 = k
    · subst h1
      by_cases h2 : id = k1
      · subst h2; simpa [List.filter_cons, mapGet] using ih
      · have h3 : ¬ k1 = id := fun h => h2 h.symm
        simpa [List.filter_cons, mapGet, h3, h2] using ih
    · by_cases h2 : k1 = id
      · subst h2; simp [List.filter_cons, mapGet, h1]
      · simp only [List.filter_cons, h1, ne_eq, not_false_eq_true, decide_True, ↓reduceIte,
          mapGet, h2]
        exact ih

theorem mapGet_foldl_mapDelete (ids : List String) (m : UserMap) (id : String) :
    mapGet (ids.foldl mapDelete m) id = if id ∈ ids then none else mapGet m id := by
  induction ids generalizing m with
  | nil => simp
  | cons k ks ih =>
    rw [List.foldl_cons, ih, mapGet_mapDelete]
    by_cases h1 : id = k
    · simp [h1]
    · by_cases h2 : id ∈ ks
      · simp [h2]
      · simp [h1, h2]

theorem updateTrafficUsage_lookup (s : JSONStorage) (userID : String) (bytesUsed : Int)
    (w : Bool) (u : User) (hget : mapGet s.users userID = some u) :
    mapGet (UserService.UpdateTrafficUsage s userID bytesUsed w).2.users userID =
      some { u with TrafficUsed := wrapInt64 (u.TrafficUsed + bytesUsed) } := by
  simp [UserService.UpdateTrafficUsage, JSONStorage.UpdateTrafficUsage, hget,
    mapGet_mapSet_self]

theorem updateTrafficUsage_result (s : JSONStorage) (userID : String) (bytesUsed : Int)
    (u : User) (hget : mapGet s.users userID = some u) :
    (UserService.UpdateTrafficUsage s userID bytesUsed true).1 = .ok () := by
  simp [UserService.UpdateTrafficUsage, JSONStorage.UpdateTrafficUsage, hget,
    JSONStorage.saveToFile]

theorem addTrafficRepeatedly_lookup (calls : List (Int × Bool)) (s : JSONStorage)
    (userID : String) (u : User) (hget : mapGet s.users userID = some u)
    (hlow : -2 ^ 63 ≤ u.TrafficUsed) (hnn : ∀ c ∈ calls, 0 ≤ c.1)
    (hsum : u.TrafficUsed + (calls.map (fun c => c.1)).sum < 2 ^ 63) :
    mapGet (addTrafficRepeatedly s userID calls).users userID =
      some { u with TrafficUsed := u.TrafficUsed + (calls.map (fun c => c.1)).sum } := by
  induction calls generalizing s u with
  | nil => simpa [addTrafficRepeatedly] using hget
  | cons c cs ih =>
    have hc : 0 ≤ c.1 := hnn c (List.mem_cons_self _ _)
    have hrest : ∀ x ∈ cs, 0 ≤ x.1 := fun x hx => hnn x (List.mem_cons_of_mem _ hx)
    have hs0 : 0 ≤ (cs.map (fun c => c.1)).sum := by
      apply List.sum_nonneg
      intro x hx
      obtain ⟨y, hy, rfl⟩ := List.mem_map.mp hx
      exact hrest y hy
    simp only [List.map_cons, List.sum_cons] at hsum
    have hw : wrapInt64 (u.TrafficUsed + c.1) = u.TrafficUsed + c.1 :=
      wrapInt64_of_range _ (by omega) (by omega)
    have hstep := updateTrafficUsage_lookup s userID c.1 c.2 u hget
    rw [hw] at hstep
    have := ih (UserService.UpdateTrafficUsage s userID c.1 c.2).2
      { u with TrafficUsed := u.TrafficUsed + c.1 } hstep (by simp only; omega) hrest
      (by simp only; omega)
    simp only [addTrafficRepeatedly, List.foldl_cons, List.map_cons, List.sum_cons] at this ⊢
    rw [this]
    simp [add_assoc]

theorem applyPatch_TrafficUsed (u : User) (e : Option Int) (req : UpdateUserRequest) :
    (UserService.applyPatch u e req).TrafficUsed = u.TrafficUsed := by
  unfold UserService.applyPatch
  cases e <;> cases req.TrafficLimit <;> cases req.DeviceLimit <;> cases req.IsActive <;> rfl

theorem deleteUser_users_eq (s : JSONStorage) (id : String) (w : Bool) :
    (UserService.DeleteUser s id w).2.users =
      match mapGet s.users id with
      | none => s.users
      | some _ => mapDelete s.users id := by
  cases hid : mapGet s.users id with
  | none => simp [UserService.DeleteUser, JSONStorage.DeleteUser, hid]
  | some u => simp [UserService.DeleteUser, JSONStorage.DeleteUser, hid]

theorem cleanupExpiredUsers_users_eq (s : JSONStorage) (now : Int) (w : Bool) :
    (s.cleanupExpiredUsers now w).users =
      ((s.users.filter (fun p => p.2.IsExpired now)).map (fun p => p.1)).foldl mapDelete
        s.users := by
  have hids : s.users.foldl (fun ids p => if p.2.IsExpired now then ids ++ [p.1] else ids) [] =
      (s.users.filter (fun p => p.2.IsExpired now)).map (fun p => p.1) := by
    have h : ∀ (l : UserMap) (acc : List String),
        l.foldl (fun ids p => if p.2.IsExpired now then ids ++ [p.1] else ids) acc =
          acc ++ (l.filter (fun p => p.2.IsExpired now)).map (fun p => p.1) := by
      intro l
      induction l with
      | nil => intro acc; simp
      | cons x xs ih =>
        intro acc
        by_cases hx : x.2.IsExpired now = true
        · simp [List.foldl_cons, ih, hx]
        · simp [List.foldl_cons, ih, hx]
    simpa using h s.users []
  unfold JSONStorage.cleanupExpiredUsers
  simp only [hids]
  split <;> simp

theorem lookup_after_mapSet {m : UserMap} {k id : String} {uk v u u2 : User}
    (hk : mapGet m k = some uk) (hu : mapGet m id = some u)
    (hu2 : mapGet (mapSet m k v) id = some u2) :
    (id = k ∧ u = uk ∧ u2 = v) ∨ (id ≠ k ∧ u2 = u) := by
  by_cases h : k = id
  · subst h
    rw [mapGet_mapSet_self] at hu2
    rw [hk] at hu
    exact Or.inl ⟨rfl, (Option.some.inj hu).symm, (Option.some.inj hu2).symm⟩
  · rw [mapGet_mapSet_ne m k id v h, hu] at hu2
    exact Or.inr ⟨fun h2 => h h2.symm, (Option.some.inj hu2).symm⟩

theorem step_keeps_trafficUsed (parse : String → Option Int) (op : Op) (s : JSONStorage)
    (hop : ∀ userID bytesUsed w, op ≠ .updateTrafficUsage userID bytesUsed w)
    (id : String) (u u2 : User) (hu : mapGet s.users id = some u)
    (hu2 : mapGet (step parse op s).users id = some u2) :
    u2.TrafficUsed = u.TrafficUsed := by
  cases op with
  | createUser req newID now w =>
    rcases createUser_users parse s req newID now w with h | ⟨t, _, hid, _, h⟩
    · simp only [step, h, hu] at hu2; rw [← Option.some.inj hu2]
    · simp only [step, h] at hu2
      rw [← mapSet_of_mapGet_none _ hid] at hu2
      have hne : newID ≠ id := by
        intro heq; rw [heq, hu] at hid; cases hid
      rw [mapGet_mapSet_ne _ _ _ _ hne, hu] at hu2
      rw [← Option.some.inj hu2]
  | updateUser k req w =>
    rcases updateUser_users parse s k req w with h | ⟨uk, e, hk, h⟩
    · simp only [step, h, hu] at hu2; rw [← Option.some.inj hu2]
    · simp only [step, h] at hu2
      rcases lookup_after_mapSet hk hu hu2 with ⟨_, h1, h2⟩ | ⟨_, h2⟩
      · rw [h2, h1, applyPatch_TrafficUsed]
      · rw [h2]
  | deleteUser k w =>
    simp only [step, deleteUser_users_eq] at hu2
    cases hk : mapGet s.users k with
    | none => simp only [hk, hu] at hu2; rw [← Option.some.inj hu2]
    | some uk =>
      simp only [hk, mapGet_mapDelete] at hu2
      by_cases h : id = k
      · simp [h] at hu2
      · simp only [h, if_false, hu] at hu2; rw [← Option.some.inj hu2]
  | connectDevice k deviceID now w =>
    rcases connectDevice_users s k deviceID now w with h | ⟨uk, hk, _, _, h⟩
    · simp only [step, h, hu] at hu2; rw [← Option.some.inj hu2]
    · simp only [step, h] at hu2
      rcases lookup_after_mapSet hk hu hu2 with ⟨_, h1, h2⟩ | ⟨_, h2⟩
      · rw [h2, h1]
      · rw [h2]
  | disconnectDevice k deviceID w =>
    rcases disconnectDevice_users s k deviceID w with h | ⟨uk, hk, h⟩
    · simp only [step, h, hu] at hu2; rw [← Option.some.inj hu2]
    · simp only [step, h] at hu2
      rcases lookup_after_mapSet hk hu hu2 with ⟨_, h1, h2⟩ | ⟨_, h2⟩
      · rw [h2, h1]
      · rw [h2]
  | updateTrafficUsage k bytesUsed w => exact absurd rfl (hop k bytesUsed w)
  | cleanupExpiredUsers now w =>
    simp only [step, cleanupExpiredUsers_users_eq, mapGet_foldl_mapDelete] at hu2
    split at hu2
    · cases hu2
    · rw [hu] at hu2; rw [← Option.some.inj hu2]

theorem foldl_mapDelete_eq_filter (ids : List String) (m : UserMap) :
    ids.foldl mapDelete m = m.filter (fun p => decide (p.1 ∉ ids)) := by
  induction ids generalizing m with
  | nil => simp
  | cons k ks ih =>
    rw [List.foldl_cons, ih, mapDelete, List.filter_filter]
    apply List.filter_congr
    intro p _
    by_cases h1 : p.1 = k <;> by_cases h2 : p.1 ∈ ks <;> simp [h1, h2]

theorem expired_key_iff {m : UserMap} (hkeys : (m.map (fun p => p.1)).Nodup) (now : Int)
    (p : String × User) (hp : p ∈ m) :
    p.1 ∈ (m.filter (fun q => q.2.IsExpired now)).map (fun q => q.1) ↔
      p.2.IsExpired now = true := by
  constructor
  · intro h
    obtain ⟨q, hq, hqk⟩ := List.mem_map.mp h
    have hqm := (List.mem_filter.mp hq).1
    have hqe := (List.mem_filter.mp hq).2
    have : q = p := List.inj_on_of_nodup_map hkeys hqm hp hqk
    rw [← this]; exact hqe
  · intro h
    exact List.mem_map.mpr ⟨p, List.mem_filter.mpr ⟨hp, h⟩, rfl⟩

theorem cleanupExpiredUsers_eq_filter (s : JSONStorage) (now : Int) (w : Bool)
    (hkeys : (s.users.map (fun p => p.1)).Nodup) :
    (s.cleanupExpiredUsers now w).users =
      s.users.filter (fun p => decide (now ≤ p.2.ExpiresAt)) := by
  rw [cleanupExpiredUsers_users_eq, foldl_mapDelete_eq_filter]
  apply List.filter_congr
  intro p hp
  have h := expired_key_iff hkeys now p hp
  by_cases he : p.2.IsExpired now = true
  · have h1 := h.mpr he
    have h2 : ¬ now ≤ p.2.ExpiresAt := by
      simp only [User.IsExpired, decide_eq_true_eq] at he; omega
    simp [h1, h2]
  · have h1 : ¬ p.1 ∈ (s.users.filter (fun q => q.2.IsExpired now)).map (fun q => q.1) :=
      fun hin => he (h.mp hin)
    have h2 : now ≤ p.2.ExpiresAt := by
      simp only [User.IsExpired, decide_eq_true_eq] at he; omega
    simp only [h1, not_false_eq_true, decide_True, h2]

theorem updateUser_ok (parse : String → Option Int) (s : JSONStorage) (id : String)
    (req : UpdateUserRequest) (w : Bool) (u : User) (e : Option Int)
    (hget : mapGet s.users id = some u)
    (he : (match req.ExpiresAt with
            | none => some none
            | some text =>
              match parse text with
              | none => none
              | some t => some (some t)) = some e) :
    UserService.UpdateUser parse s id req w =
      (if w then .ok (UserService.applyPatch u e req) else .error .writeFailed,
        (JSONStorage.saveToFile
          { s with users := mapSet s.users id (UserService.applyPatch u e req) } w).2) := by
  unfold UserService.UpdateUser
  simp only [JSONStorage.GetUser, hget, he, JSONStorage.UpdateUser]
  cases w <;> simp [JSONStorage.saveToFile]

theorem trimSpace_spec (text : String) :
    ∃ pre post : List Char,
      text.data = pre ++ (TrimSpace text).data ++ post ∧
      (∀ c ∈ pre, isSpace c = true) ∧ (∀ c ∈ post, isSpace c = true) ∧
      (∀ c, (TrimSpace text).data.head? = some c → isSpace c = false) ∧
      (∀ c, (TrimSpace text).data.getLast? = some c → isSpace c = false) := by
  have hm : text.data.dropWhile isSpace =
      (TrimSpace text).data ++
        (((text.data.dropWhile isSpace).reverse).takeWhile isSpace).reverse := by
    have h := List.takeWhile_append_dropWhile isSpace (text.data.dropWhile isSpace).reverse
    have h2 := congrArg List.reverse h
    rw [List.reverse_append, List.reverse_reverse] at h2
    exact h2.symm
  have hlast : ∀ c, (TrimSpace text).data.getLast? = some c → isSpace c = false := by
    intro c hc
    have h1 : (TrimSpace text).data.getLast? =
        (((text.data.dropWhile isSpace).reverse).dropWhile isSpace).head? := by
      show (List.reverse _).getLast? = _
      rw [List.getLast?_reverse]
    rw [h1] at hc
    have := List.head?_dropWhile_not isSpace (text.data.dropWhile isSpace).reverse
    rw [hc] at this
    simpa using this
  refine ⟨text.data.takeWhile isSpace,
    (((text.data.dropWhile isSpace).reverse).takeWhile isSpace).reverse, ?_, ?_, ?_, ?_, hlast⟩
  · rw [List.append_assoc, ← hm, List.takeWhile_append_dropWhile]
  · intro c hc; exact List.mem_takeWhile_imp hc
  · intro c hc; exact List.mem_takeWhile_imp (List.mem_reverse.mp hc)
  · intro c hc
    have h0 := List.head?_dropWhile_not isSpace text.data
    rw [hm, List.head?_append, hc] at h0
    simpa using h0

theorem foldl_keypairLine_none (lines : List (List Char)) (result : Keypair)
    (hno : ∀ line ∈ lines, containsText line "PrivateKey:".data = false ∧
      containsText line "PublicKey:".data = false) :
    lines.foldl keypairLine result = result := by
  induction lines generalizing result with
  | nil => rfl
  | cons line rest ih =>
    have h1 := hno line (List.mem_cons_self _ _)
    rw [List.foldl_cons]
    have : keypairLine result line = result := by
      unfold keypairLine
      simp [h1.1, h1.2]
    rw [this]
    exact ih result (fun l hl => hno l (List.mem_cons_of_mem _ hl))

theorem getUserByUsername_append_new (m : UserMap) (file : Option UserMap) (k : String)
    (v : User) (hfresh : ∀ p ∈ m, p.2.Username ≠ v.Username) :
    JSONStorage.GetUserByUsername { users := m ++ [(k, v)], file := file } v.Username =
      .ok v := by
  have hnone : m.find? (fun p => p.2.Username == v.Username) = none := by
    rw [List.find?_eq_none]
    intro p hp
    simpa using hfresh p hp
  simp [JSONStorage.GetUserByUsername, List.find?_append, hnone]

theorem saveToFile_result (s : JSONStorage) (w : Bool) :
    JSONStorage.saveToFile s w =
      (if w then .ok () else .error .writeFailed,
        ⟨s.users, if w then some s.users else s.file⟩) := by
  cases w <;> rfl

theorem createUser_rejected_unchanged (parse : String → Option Int) (s : JSONStorage)
    (req : CreateUserRequest) (newID : String) (now : Int) (w : Bool) (e : Error)
    (hres : (UserService.CreateUser parse s req newID now w).1 = .error e)
    (he : e ≠ .writeFailed) :
    (UserService.CreateUser parse s req newID now w).2 = s := by
  cases hname : s.GetUserByUsername req.Username with
  | ok u => simp [UserService.CreateUser, hname]
  | error e1 =>
    cases hparse : parse req.ExpiresAt with
    | none => simp [UserService.CreateUser, hname, hparse]
    | some t =>
      cases hid : mapGet s.users newID with
      | some u0 => simp [UserService.CreateUser, hname, hparse, JSONStorage.CreateUser, hid]
      | none =>
        exfalso
        cases w
        · simp [UserService.CreateUser, hname, hparse, JSONStorage.CreateUser, hid,
            JSONStorage.saveToFile] at hres
          exact he hres.symm
        · simp [UserService.CreateUser, hname, hparse, JSONStorage.CreateUser, hid,
            JSONStorage.saveToFile] at hres

theorem updateUser_rejected_unchanged (parse : String → Option Int) (s : JSONStorage)
    (id : String) (req : UpdateUserRequest) (w : Bool) (e : Error)
    (hres : (UserService.UpdateUser parse s id req w).1 = .error e)
    (he : e ≠ .writeFailed) :
    (UserService.UpdateUser parse s id req w).2 = s := by
  cases hid : mapGet s.users id with
  | none => simp [UserService.UpdateUser, JSONStorage.GetUser, hid]
  | some u =>
    cases hp : (match req.ExpiresAt with
        | none => some none
        | some text =>
          match parse text with
          | none => none
          | some t => some (some t)) with
    | none =>
      unfold UserService.UpdateUser
      simp only [JSONStorage.GetUser, hid, hp]
    | some e1 =>
      exfalso
      rw [updateUser_ok parse s id req w u e1 hid hp] at hres
      cases w
      · simp at hres; exact he hres.symm
      · simp at hres

theorem storage_rejected_unchanged (s : JSONStorage) (id deviceID : String)
    (bytesUsed : Int) (w : Bool) (e : Error) (he : e ≠ .writeFailed) :
    ((UserService.DeleteUser s id w).1 = .error e → (UserService.DeleteUser s id w).2 = s) ∧
    ((UserService.DisconnectDevice s id deviceID w).1 = .error e →
      (UserService.DisconnectDevice s id deviceID w).2 = s) ∧
    ((UserService.UpdateTrafficUsage s id bytesUsed w).1 = .error e →
      (UserService.UpdateTrafficUsage s id bytesUsed w).2 = s) := by
  cases hid : mapGet s.users id with
  | none =>
    simp [UserService.DeleteUser, JSONStorage.DeleteUser, UserService.DisconnectDevice,
      JSONStorage.RemoveConnectedDevice, UserService.UpdateTrafficUsage,
      JSONStorage.UpdateTrafficUsage, hid]
  | some u =>
    have hne : Error.writeFailed ≠ e := fun h => he h.symm
    cases w <;>
      simp [UserService.DeleteUser, JSONStorage.DeleteUser, UserService.DisconnectDevice,
        JSONStorage.RemoveConnectedDevice, UserService.UpdateTrafficUsage,
        JSONStorage.UpdateTrafficUsage, hid, JSONStorage.saveToFile, hne]

theorem connectDevice_rejected_unchanged (s : JSONStorage) (userID deviceID : String)
    (now : Int) (w : Bool) (e : Error)
    (hres : (UserService.ConnectDevice s userID deviceID now w).1 = .error e)
    (he : e ≠ .writeFailed) :
    (UserService.ConnectDevice s userID deviceID now w).2 = s := by
  cases hid : mapGet s.users userID with
  | none => simp [UserService.ConnectDevice, JSONStorage.GetUser, hid]
  | some u =>
    by_cases hcan : u.CanConnect now deviceID = true
    · by_cases hany : u.ConnectedDevices.any (fun device => device == deviceID) = true
      · simp [UserService.ConnectDevice, JSONStorage.GetUser, hid, hcan,
          JSONStorage.AddConnectedDevice, hany]
      · exfalso
        have hne : Error.writeFailed ≠ e := fun h => he h.symm
        cases w <;>
          simp [UserService.ConnectDevice, JSONStorage.GetUser, hid, hcan,
            JSONStorage.AddConnectedDevice, hany, JSONStorage.saveToFile, hne] at hres
    · simp [UserService.ConnectDevice, JSONStorage.GetUser, hid, hcan]

theorem createUser_eq_two_steps (parse : String → Option Int) (s : JSONStorage)
    (call : CreateCall) :
    stepCall parse (stepCall parse s (.ready call)).2 (stepCall parse s (.ready call)).1 =
      (.finished (UserService.CreateUser parse s call.req call.newID call.now call.w).1,
        (UserService.CreateUser parse s call.req call.newID call.now call.w).2) := by
  cases hname : s.GetUserByUsername call.req.Username with
  | ok u => simp [stepCall, createCheck, UserService.CreateUser, hname]
  | error e =>
    cases hparse : parse call.req.ExpiresAt with
    | none => simp [stepCall, createCheck, UserService.CreateUser, hname, hparse]
    | some t =>
      simp only [stepCall, createCheck, UserService.CreateUser, hname, hparse, createInsert]
      split <;> simp_all

theorem live_lookup_aux (heap : List User) (l : List (String × Nat)) (id : String)
    (hall : ∀ e ∈ l, e.2 < heap.length) :
    mapGet (l.filterMap (fun e => (heap[e.2]?).map (fun user => (e.1, user)))) id =
      match l.find? (fun e => e.1 == id) with
      | none => none
      | some e => heap[e.2]? := by
  induction l with
  | nil => simp [mapGet]
  | cons e rest ih =>
    have he : e.2 < heap.length := hall e (List.mem_cons_self _ _)
    have hrest : ∀ x ∈ rest, x.2 < heap.length := fun x hx => hall x (List.mem_cons_of_mem _ hx)
    have hsome : heap[e.2]? = some heap[e.2] := List.getElem?_eq_getElem he
    by_cases hk : e.1 = id
    · simp [List.filterMap_cons, hsome, mapGet, hk]
    · simp [List.filterMap_cons, hsome, mapGet, hk, ih hrest]

theorem live_view_lookup (s : LiveStorage) (id : String)
    (hall : ∀ e ∈ s.users, e.2 < s.heap.length) :
    mapGet s.view id =
      match s.GetUser id with
      | .ok p => s.deref p
      | .error _ => none := by
  unfold LiveStorage.view LiveStorage.GetUser LiveStorage.deref
  rw [live_lookup_aux s.heap s.users id hall]
  cases s.users.find? (fun e => e.1 == id) <;> rfl

theorem live_getUser_valid (s : LiveStorage) (id : String) (p : Nat)
    (hall : ∀ e ∈ s.users, e.2 < s.heap.length) (hget : s.GetUser id = .ok p) :
    p < s.heap.length := by
  unfold LiveStorage.GetUser at hget
  split at hget
  · cases hget
  · rename_i e he
    cases hget
    exact hall e (List.mem_of_find?_eq_some he)

/-! ## The claims -/

/-- C1 (counterexample): the account `alice` expires at instant 100, so at `now = 100`
it is expired in the sense `now >= expiresAt`; yet `GenerateConfig` hands it to
`buildConfig`, and it is in the trojan, vless and vless-reality user lists. -/
theorem account_expiring_now_is_listed :
    (100 : Int) ≥ userExpiringAt100.ExpiresAt ∧
    ConfigService.activeUsers [userExpiringAt100] 100 = [userExpiringAt100] ∧
    (serviceExample.buildConfig none
        (ConfigService.activeUsers [userExpiringAt100] 100)).Inbounds.map
      (fun i => (i.Tag, i.Users.map (fun c => c.Name))) =
      [ ("mixed-in", []), ("trojan-in", ["alice"]), ("vless-in", ["alice"]),
        ("vless-reality-in", ["alice"]) ] ∧
    ¬ (userExpiringAt100 ∈ ConfigService.activeUsers [userExpiringAt100] 100 ↔
        (userExpiringAt100 ∈ [userExpiringAt100] ∧ userExpiringAt100.IsActive = true ∧
          ¬ ((100 : Int) ≥ userExpiringAt100.ExpiresAt) ∧
          ¬ (userExpiringAt100.TrafficUsed ≥ userExpiringAt100.TrafficLimit))) := by
  decide

/-- C1 (amended): for every list of accounts and every instant `now`, the list
`GenerateConfig` hands to `buildConfig` holds an account exactly when the account is in the
input, active, not past its expiry (`now <= expiresAt`, so also at `now = expiresAt`) and
below its traffic limit; it is the input filtered in order. The user lists of the trojan,
vless and vless-reality inbounds are the entries of that filtered list, one an account and
in its order, and the mixed inbound has none. For every registry the input is the list of
the stored records, and the document `GenerateConfig` writes has these user lists. -/
theorem generateConfig_lists_exactly_eligible (cs : ConfigService) (keyFile : Option String)
    (s : JSONStorage) (users : List User) (now : Int) :
    (∀ u : User, u ∈ ConfigService.activeUsers users now ↔
        (u ∈ users ∧ u.IsActive = true ∧ u.IsExpired now = false ∧
          u.IsTrafficExceeded = false)) ∧
    (∀ u : User, u ∈ ConfigService.activeUsers users now ↔
        (u ∈ users ∧ u.IsActive = true ∧ now ≤ u.ExpiresAt ∧
          u.TrafficUsed < u.TrafficLimit)) ∧
    ConfigService.activeUsers users now =
      users.filter (fun u => u.IsActive && !u.IsExpired now && !u.IsTrafficExceeded) ∧
    (cs.buildConfig keyFile (ConfigService.activeUsers users now)).Inbounds.map
        (fun i => (i.Tag, i.Users)) =
      [ ("mixed-in", []),
        ("trojan-in", (ConfigService.activeUsers users now).map
          (fun u => ({ Name := u.Username, Password := u.Password, UUID := "" } : UserConfig))),
        ("vless-in", (ConfigService.activeUsers users now).map
          (fun u => ({ Name := u.Username, Password := "", UUID := u.ID } : UserConfig))),
        ("vless-reality-in", (ConfigService.activeUsers users now).map
          (fun u => ({ Name := u.Username, Password := "", UUID := u.ID } : UserConfig))) ] ∧
    s.ListUsers = s.users.map (fun p => p.2) ∧
    (∃ config : SingBoxConfig,
      cs.GenerateConfig s now keyFile true = .ok config ∧
      config.Inbounds.map (fun i => (i.Tag, i.Users)) =
        [ ("mixed-in", []),
          ("trojan-in",
            ((s.users.map (fun p => p.2)).filter
              (fun u => u.IsActive && decide (now ≤ u.ExpiresAt) &&
                decide (u.TrafficUsed < u.TrafficLimit))).map
              (fun u =>
                ({ Name := u.Username, Password := u.Password, UUID := "" } : UserConfig))),
          ("vless-in",
            ((s.users.map (fun p => p.2)).filter
              (fun u => u.IsActive && decide (now ≤ u.ExpiresAt) &&
                decide (u.TrafficUsed < u.TrafficLimit))).map
              (fun u => ({ Name := u.Username, Password := "", UUID := u.ID } : UserConfig))),
          ("vless-reality-in",
            ((s.users.map (fun p => p.2)).filter
              (fun u => u.IsActive && decide (now ≤ u.ExpiresAt) &&
                decide (u.TrafficUsed < u.TrafficLimit))).map
              (fun u => ({ Name := u.Username, Password := "", UUID := u.ID } : UserConfig))) ]) := by
  have hfilter : ∀ l : List User,
      l.filter (fun u => u.IsActive && !u.IsExpired now && !u.IsTrafficExceeded) =
        l.filter (fun u => u.IsActive && decide (now ≤ u.ExpiresAt) &&
          decide (u.TrafficUsed < u.TrafficLimit)) := by
    intro l
    apply List.filter_congr
    intro u _
    have e1 : (!u.IsExpired now) = decide (now ≤ u.ExpiresAt) := by
      unfold User.IsExpired
      by_cases h : u.ExpiresAt < now
      · have h2 : ¬ now ≤ u.ExpiresAt := by omega
        simp [h, h2]
      · have h2 : now ≤ u.ExpiresAt := by omega
        simp [h, h2]
    have e2 : (!u.IsTrafficExceeded) = decide (u.TrafficUsed < u.TrafficLimit) := by
      unfold User.IsTrafficExceeded
      by_cases h : u.TrafficLimit ≤ u.TrafficUsed
      · have h2 : ¬ u.TrafficUsed < u.TrafficLimit := by omega
        simp [h, h2]
      · have h2 : u.TrafficUsed < u.TrafficLimit := by omega
        simp [h, h2]
    rw [e1, e2]
  refine ⟨?_, ?_, activeUsers_eq_filter users now, ?_, listUsers_eq_map s, ?_⟩
  · intro u
    rw [activeUsers_eq_filter]
    simp [List.mem_filter, and_assoc]
  · intro u
    rw [activeUsers_eq_filter]
    simp [List.mem_filter, and_assoc, User.IsExpired, User.IsTrafficExceeded]
  · simp [ConfigService.buildConfig, buildTrojanUsers_eq_map, buildVlessUsers_eq_map]
  · refine ⟨cs.buildConfig keyFile (ConfigService.activeUsers s.ListUsers now), ?_, ?_⟩
    · simp [ConfigService.GenerateConfig]
    · rw [activeUsers_eq_filter, listUsers_eq_map, hfilter]
      simp [ConfigService.buildConfig, buildTrojanUsers_eq_map, buildVlessUsers_eq_map]

/-- C2 (counterexample): at the instant of expiry itself `IsExpired` is false, although
`now >= expiresAt` holds. -/
theorem isExpired_at_expiry_instant_false :
    ¬ (userExpiringAt100.IsExpired 100 = true ↔ (100 : Int) ≥ userExpiringAt100.ExpiresAt) := by
  decide

/-- C2 (amended): `IsExpired` is true exactly when `now` is strictly after `expiresAt`; at
`now = expiresAt` the account is not expired, and an active account within its traffic
limit is then still handed to `buildConfig`. -/
theorem isExpired_iff_strictly_after (u : User) (now : Int) :
    (u.IsExpired now = true ↔ u.ExpiresAt < now) ∧
    u.IsExpired u.ExpiresAt = false ∧
    (u.IsActive = true → u.IsTrafficExceeded = false →
      ConfigService.activeUsers [u] u.ExpiresAt = [u]) := by
  refine ⟨by simp [User.IsExpired], by simp [User.IsExpired], ?_⟩
  intro ha ht
  simp [ConfigService.activeUsers, User.IsExpired, ha, ht]

/-- C3: in every state reachable from the empty registry the stored keys are pairwise
distinct and no two stored accounts have the same username; and `CreateUser` with a
username that is already stored returns the error `usernameExists` and changes nothing. -/
theorem usernames_unique_of_reachable (parse : String → Option Int) (s : JSONStorage)
    (h : Reachable parse s) :
    (s.users.map (fun p => p.1)).Nodup ∧
    (s.users.map (fun p => p.2.Username)).Nodup ∧
    ∀ (req : CreateUserRequest) (newID : String) (now : Int) (w : Bool),
      (∃ p ∈ s.users, p.2.Username = req.Username) →
      UserService.CreateUser parse s req newID now w =
        (.error (.usernameExists req.Username), s) := by
  have hn := names_nodup_reachable parse _ s h
  exact ⟨hn.1, hn.2, fun req newID now w hex =>
    createUser_existing_username parse s req newID now w hex⟩

/-- C3 (witness): the registry holding `alice` is reachable, and a second `alice` is
refused. -/
theorem usernames_unique_of_reachable_witness :
    Reachable parseFixed stateAlice ∧
    (stateAlice.users.map (fun p => p.2.Username)).Nodup ∧
    UserService.CreateUser parseFixed stateAlice (aliceRequest 3) "id-2" 7 true =
      (.error (.usernameExists "alice"), stateAlice) :=
  have hr : Reachable parseFixed stateAlice :=
    ReachableVia.next (.createUser (aliceRequest 1) "id-1" 0 true) (ReachableVia.init none)
      trivial
  ⟨hr, (usernames_unique_of_reachable parseFixed stateAlice hr).2.1,
    (usernames_unique_of_reachable parseFixed stateAlice hr).2.2 (aliceRequest 3) "id-2" 7 true
      ⟨("id-1", { userExpiringAt100 with ExpiresAt := 1893456000 }), by decide, rfl⟩⟩

/-- C4: for a request whose username is not stored and whose `expires_at` parses, with a
fresh identifier from the generator and a successful write, `CreateUser` returns a record
`r` that a following `GetUser r.ID` returns again, carrying the request's username,
password, traffic limit and device limit, the parsed expiry, `isActive = true`,
`trafficUsed = 0` and no connected device. -/
theorem createUser_then_getUser (parse : String → Option Int) (s : JSONStorage)
    (req : CreateUserRequest) (newID : String) (now t : Int)
    (hname : ∀ p ∈ s.users, p.2.Username ≠ req.Username)
    (hparse : parse req.ExpiresAt = some t)
    (hfresh : mapGet s.users newID = none) :
    ∃ r : User,
      (UserService.CreateUser parse s req newID now true).1 = .ok r ∧
      UserService.GetUser (UserService.CreateUser parse s req newID now true).2 r.ID = .ok r ∧
      r.ID = newID ∧ r.CreatedAt = now ∧
      r.Username = req.Username ∧ r.Password = req.Password ∧
      r.TrafficLimit = req.TrafficLimit ∧ r.DeviceLimit = req.DeviceLimit ∧
      r.ExpiresAt = t ∧ r.IsActive = true ∧ r.TrafficUsed = 0 ∧ r.ConnectedDevices = [] := by
  have hname2 : ∃ e, s.GetUserByUsername req.Username = .error e := by
    have := (getUserByUsername_error_iff s req.Username).mpr hname
    cases hg : s.GetUserByUsername req.Username with
    | ok u => rw [hg] at this; simp [isError] at this
    | error e => exact ⟨e, rfl⟩
  obtain ⟨e, he⟩ := hname2
  refine ⟨{ ID := newID, Username := req.Username, Password := req.Password,
            CreatedAt := now, ExpiresAt := t, TrafficLimit := req.TrafficLimit,
            TrafficUsed := 0, DeviceLimit := req.DeviceLimit, ConnectedDevices := [],
            IsActive := true }, ?_, ?_, rfl, rfl, rfl, rfl, rfl, rfl, rfl, rfl, rfl, rfl⟩
  · simp [UserService.CreateUser, he, hparse, JSONStorage.CreateUser, hfresh,
      JSONStorage.saveToFile]
  · simp [UserService.CreateUser, he, hparse, JSONStorage.CreateUser, hfresh,
      JSONStorage.saveToFile, UserService.GetUser, JSONStorage.GetUser, mapGet_mapSet_self]

/-- C4 (witness): creating `alice` in the empty registry and reading her back. -/
theorem createUser_then_getUser_witness :
    ∃ r : User,
      (UserService.CreateUser parseFixed emptyStorage (aliceRequest 1) "id-1" 0 true).1 = .ok r ∧
      UserService.GetUser
        (UserService.CreateUser parseFixed emptyStorage (aliceRequest 1) "id-1" 0 true).2 r.ID =
        .ok r ∧
      r.ID = "id-1" ∧ r.CreatedAt = 0 ∧
      r.Username = "alice" ∧ r.Password = "secret" ∧
      r.TrafficLimit = 1000 ∧ r.DeviceLimit = 1 ∧
      r.ExpiresAt = 1893456000 ∧ r.IsActive = true ∧ r.TrafficUsed = 0 ∧
      r.ConnectedDevices = [] :=
  createUser_then_getUser parseFixed emptyStorage (aliceRequest 1) "id-1" 0 1893456000
    (by decide) (by decide) (by decide)

/-- C5: for a stored account whose device list has reached its limit and a device that
is not in the list, `ConnectDevice` returns the error `cannotConnect` and leaves the
whole registry, so also `connectedDevices`, unchanged. -/
theorem connectDevice_at_limit_rejected (s : JSONStorage) (userID deviceID : String)
    (now : Int) (w : Bool) (u : User)
    (hget : mapGet s.users userID = some u)
    (hfull : u.DeviceLimit ≤ (u.ConnectedDevices.length : Int))
    (hnew : deviceID ∉ u.ConnectedDevices) :
    UserService.ConnectDevice s userID deviceID now w = (.error .cannotConnect, s) ∧
    mapGet (UserService.ConnectDevice s userID deviceID now w).2.users userID = some u := by
  have hany : u.ConnectedDevices.any (fun device => device == deviceID) = false := by
    rw [Bool.eq_false_iff]; intro h; exact hnew ((any_beq_iff_mem _ _).mp h)
  have hcan : u.CanConnect now deviceID = false := by
    unfold User.CanConnect
    split
    · rfl
    · rw [hany]; simp; omega
  have h1 : UserService.ConnectDevice s userID deviceID now w = (.error .cannotConnect, s) := by
    simp [UserService.ConnectDevice, JSONStorage.GetUser, hget, hcan]
  exact ⟨h1, by rw [h1]; exact hget⟩

/-- C5 (witness): `alice` has device limit 1 and `d1` connected; `d2` is refused. -/
theorem connectDevice_at_limit_rejected_witness :
    UserService.ConnectDevice (UserService.ConnectDevice stateAlice "id-1" "d1" 5 true).2
        "id-1" "d2" 6 true =
      (.error .cannotConnect, (UserService.ConnectDevice stateAlice "id-1" "d1" 5 true).2) :=
  (connectDevice_at_limit_rejected (UserService.ConnectDevice stateAlice "id-1" "d1" 5 true).2
    "id-1" "d2" 6 true
    { ID := "id-1", Username := "alice", Password := "secret", CreatedAt := 0,
      ExpiresAt := 1893456000, TrafficLimit := 1000, TrafficUsed := 0, DeviceLimit := 1,
      ConnectedDevices := ["d1"], IsActive := true }
    (by decide) (by decide) (by decide)).1

/-- C6 (counterexample): `d1` is connected to the inactive account `alice`, and
`ConnectDevice` for `d1` returns the error `cannotConnect`, not success. -/
theorem connectDevice_member_ineligible_fails :
    (∃ u, mapGet stateAliceInactive.users "id-1" = some u ∧ "d1" ∈ u.ConnectedDevices) ∧
    (UserService.ConnectDevice stateAliceInactive "id-1" "d1" 6 true).1 = .error .cannotConnect ∧
    (UserService.ConnectDevice stateAliceInactive "id-1" "d1" 6 true).1 ≠ .ok () := by
  refine ⟨⟨_, rfl, by decide⟩, by decide, by decide⟩

/-- C6 (amended): for a stored account and a device already in its list, `ConnectDevice`
is a no-op success without a write when the account is eligible, and returns
`cannotConnect` when it is not; the registry is unchanged either way. An ineligible account
gets `cannotConnect` for every device, a member or not. -/
theorem connectDevice_member_iff_eligible (s : JSONStorage) (userID deviceID : String)
    (now : Int) (w : Bool) (u : User)
    (hget : mapGet s.users userID = some u)
    (hmem : deviceID ∈ u.ConnectedDevices) :
    UserService.ConnectDevice s userID deviceID now w =
      (if u.IsActive && !u.IsExpired now && !u.IsTrafficExceeded then .ok ()
        else .error .cannotConnect, s) ∧
    ∀ other : String, (u.IsActive && !u.IsExpired now && !u.IsTrafficExceeded) = false →
      UserService.ConnectDevice s userID other now w = (.error .cannotConnect, s) := by
  exact ⟨connectDevice_of_member s userID deviceID now w u hget hmem,
    fun other hel => connectDevice_ineligible s userID other now w u hget hel⟩

/-- C6 (witness): connecting `d1` again to the eligible account `alice` changes nothing,
also when the file could not be written. -/
theorem connectDevice_member_iff_eligible_witness :
    UserService.ConnectDevice stateAliceConnected "id-1" "d1" 6 false =
      (.ok (), stateAliceConnected) :=
  (connectDevice_member_iff_eligible stateAliceConnected "id-1" "d1" 6 false
    { ID := "id-1", Username := "alice", Password := "secret", CreatedAt := 0,
      ExpiresAt := 1893456000, TrafficLimit := 1000, TrafficUsed := 0, DeviceLimit := 2,
      ConnectedDevices := ["d1"], IsActive := true }
    (by decide) (by decide)).1

/-- C7: for a stored account and a device already in its list, any number of repeated
`ConnectDevice` calls, whatever each returns, leaves the registry as it was: the account's
`connectedDevices` keeps its length and its contents. -/
theorem connectDevice_repeated_member_unchanged (s : JSONStorage) (userID deviceID : String)
    (u : User) (calls : List (Int × Bool))
    (hget : mapGet s.users userID = some u)
    (hmem : deviceID ∈ u.ConnectedDevices) :
    connectRepeatedly s userID deviceID calls = s ∧
    mapGet (connectRepeatedly s userID deviceID calls).users userID = some u := by
  have h1 : connectRepeatedly s userID deviceID calls = s := by
    unfold connectRepeatedly
    induction calls with
    | nil => rfl
    | cons c cs ih =>
      rw [List.foldl_cons,
        connectDevice_of_member s userID deviceID c.1 c.2 u hget hmem]
      exact ih
  exact ⟨h1, by rw [h1]; exact hget⟩

/-- C7 (witness): three more connects of `d1`, one of them with a failing write. -/
theorem connectDevice_repeated_member_unchanged_witness :
    connectRepeatedly stateAliceConnected "id-1" "d1" [(6, true), (7, false), (8, true)] =
      stateAliceConnected :=
  (connectDevice_repeated_member_unchanged stateAliceConnected "id-1" "d1"
    { ID := "id-1", Username := "alice", Password := "secret", CreatedAt := 0,
      ExpiresAt := 1893456000, TrafficLimit := 1000, TrafficUsed := 0, DeviceLimit := 2,
      ConnectedDevices := ["d1"], IsActive := true }
    [(6, true), (7, false), (8, true)] (by decide) (by decide)).1

/-- C8: in every state reachable from the empty registry every stored account's
`connectedDevices` has pairwise distinct entries; and `ConnectDevice` and
`DisconnectDevice` (like every other call) keep it so. -/
theorem connectedDevices_nodup_of_reachable (parse : String → Option Int) (s : JSONStorage)
    (h : Reachable parse s) :
    (∀ p ∈ s.users, p.2.ConnectedDevices.Nodup) ∧
    (∀ (userID deviceID : String) (now : Int) (w : Bool),
      ∀ p ∈ (UserService.ConnectDevice s userID deviceID now w).2.users,
        p.2.ConnectedDevices.Nodup) ∧
    (∀ (userID deviceID : String) (w : Bool),
      ∀ p ∈ (UserService.DisconnectDevice s userID deviceID w).2.users,
        p.2.ConnectedDevices.Nodup) ∧
    (∀ op : Op, ∀ p ∈ (step parse op s).users, p.2.ConnectedDevices.Nodup) := by
  have hs := devices_nodup_reachable parse _ s h
  exact ⟨hs,
    fun userID deviceID now w =>
      devices_nodup_step parse (.connectDevice userID deviceID now w) s hs,
    fun userID deviceID w =>
      devices_nodup_step parse (.disconnectDevice userID deviceID w) s hs,
    fun op => devices_nodup_step parse op s hs⟩

/-- C8 (witness): after `alice` connected `d1`, her list `["d1"]` is duplicate-free, and a
second connect of `d1` does not add it again. -/
theorem connectedDevices_nodup_of_reachable_witness :
    Reachable parseFixed stateAliceConnected ∧
    (∀ p ∈ stateAliceConnected.users, p.2.ConnectedDevices.Nodup) ∧
    (∀ p ∈ (UserService.ConnectDevice stateAliceConnected "id-1" "d1" 6 true).2.users,
      p.2.ConnectedDevices.Nodup) :=
  have hr : Reachable parseFixed stateAliceConnected :=
    ReachableVia.next (.connectDevice "id-1" "d1" 5 true)
      (ReachableVia.next (.createUser (aliceRequest 2) "id-1" 0 true) (ReachableVia.init none)
        trivial)
      trivial
  ⟨hr, (connectedDevices_nodup_of_reachable parseFixed stateAliceConnected hr).1,
    (connectedDevices_nodup_of_reachable parseFixed stateAliceConnected hr).2.1 "id-1" "d1" 6
      true⟩

/-- C9 (counterexample): `CreateUser` accepts the device limit -1, and the account it
stores has an empty device list, whose length 0 is not at most -1. -/
theorem negative_limit_breaks_device_bound :
    ReachableVia parseFixed NoLowering stateNegativeLimit ∧
    ¬ (∀ p ∈ stateNegativeLimit.users,
        (p.2.ConnectedDevices.length : Int) ≤ p.2.DeviceLimit) := by
  constructor
  · exact ReachableVia.next (.createUser (aliceRequest (-1)) "id-1" 0 true)
      (ReachableVia.init none) trivial
  · decide

/-- C9 (amended): in every state reachable from the empty registry by calls in which
`CreateUser` is given a device limit of at least zero and `UpdateUser` does not lower a
stored device limit, every stored account has at most `deviceLimit` connected devices. -/
theorem devices_le_limit_of_reachable (parse : String → Option Int) (s : JSONStorage)
    (h : ReachableVia parse (fun st op => NoLowering st op ∧ NonNegativeLimit op) s) :
    ∀ p ∈ s.users, (p.2.ConnectedDevices.length : Int) ≤ p.2.DeviceLimit := by
  induction h with
  | init file => simp
  | next op _ hop ih => exact devices_le_limit_step parse op _ hop.1 hop.2 ih

/-- C9 (witness): `alice` with device limit 2 and one connected device. -/
theorem devices_le_limit_of_reachable_witness :
    ReachableVia parseFixed (fun st op => NoLowering st op ∧ NonNegativeLimit op)
      stateAliceConnected ∧
    (∀ p ∈ stateAliceConnected.users,
      (p.2.ConnectedDevices.length : Int) ≤ p.2.DeviceLimit) ∧
    mapGet stateAliceConnected.users "id-1" =
      some
        { ID := "id-1", Username := "alice", Password := "secret", CreatedAt := 0,
          ExpiresAt := 1893456000, TrafficLimit := 1000, TrafficUsed := 0, DeviceLimit := 2,
          ConnectedDevices := ["d1"], IsActive := true } :=
  have hr : ReachableVia parseFixed (fun st op => NoLowering st op ∧ NonNegativeLimit op)
      stateAliceConnected :=
    ReachableVia.next (.connectDevice "id-1" "d1" 5 true)
      (ReachableVia.next (.createUser (aliceRequest 2) "id-1" 0 true) (ReachableVia.init none)
        ⟨trivial, (by decide : (0 : Int) ≤ 2)⟩)
      ⟨trivial, trivial⟩
  ⟨hr, devices_le_limit_of_reachable parseFixed stateAliceConnected hr, by decide⟩

/-- C10: with the write succeeding, `DisconnectDevice` returns an error exactly when no
account is stored under the id, and that error is `idNotFound`. For a stored account whose
device list is duplicate-free it returns success, and the stored list becomes the previous
one without `deviceID`, the other entries in their order: the device is no member
afterwards, a device that was absent leaves the list as it was, the account's other fields
and every other account are unchanged. -/
theorem disconnectDevice_removes_device (s : JSONStorage) (userID deviceID : String)
    (u : User) (hget : mapGet s.users userID = some u) (hnd : u.ConnectedDevices.Nodup) :
    (∀ id d : String,
      (isError (UserService.DisconnectDevice s id d true).1 = true ↔ mapGet s.users id = none) ∧
      (mapGet s.users id = none → ∀ w : Bool,
        UserService.DisconnectDevice s id d w = (.error (.idNotFound id), s))) ∧
    (UserService.DisconnectDevice s userID deviceID true).1 = .ok () ∧
    (∀ w : Bool, mapGet (UserService.DisconnectDevice s userID deviceID w).2.users userID =
      some { u with ConnectedDevices := u.ConnectedDevices.filter (fun x => x != deviceID) }) ∧
    deviceID ∉ u.ConnectedDevices.filter (fun x => x != deviceID) ∧
    (deviceID ∉ u.ConnectedDevices →
      u.ConnectedDevices.filter (fun x => x != deviceID) = u.ConnectedDevices) ∧
    (∀ (w : Bool) (other : String), other ≠ userID →
      mapGet (UserService.DisconnectDevice s userID deviceID w).2.users other =
        mapGet s.users other) := by
  refine ⟨?_, ?_, ?_, ?_, ?_, ?_⟩
  · intro id d
    cases hid : mapGet s.users id with
    | none =>
      simp [UserService.DisconnectDevice, JSONStorage.RemoveConnectedDevice, hid, isError]
    | some v =>
      simp [UserService.DisconnectDevice, JSONStorage.RemoveConnectedDevice, hid, isError,
        JSONStorage.saveToFile]
  · simp [UserService.DisconnectDevice, JSONStorage.RemoveConnectedDevice, hget,
      JSONStorage.saveToFile]
  · intro w
    simp only [UserService.DisconnectDevice, JSONStorage.RemoveConnectedDevice, hget,
      saveToFile_users, mapGet_mapSet_self, removeDevice_eq_filter deviceID hnd]
  · simp [List.mem_filter]
  · intro hnot
    rw [List.filter_eq_self]
    intro x hx
    have : x ≠ deviceID := fun h => hnot (h ▸ hx)
    simpa using this
  · intro w other hne
    simp only [UserService.DisconnectDevice, JSONStorage.RemoveConnectedDevice, hget,
      saveToFile_users]
    exact mapGet_mapSet_ne s.users userID other _ (Ne.symm hne)

/-- C10 (witness): disconnecting `d1` from `alice` empties her list; an unknown id is
reported. -/
theorem disconnectDevice_removes_device_witness :
    (UserService.DisconnectDevice stateAliceConnected "id-1" "d1" true).1 = .ok () ∧
    mapGet (UserService.DisconnectDevice stateAliceConnected "id-1" "d1" true).2.users "id-1" =
      some
        { ID := "id-1", Username := "alice", Password := "secret", CreatedAt := 0,
          ExpiresAt := 1893456000, TrafficLimit := 1000, TrafficUsed := 0, DeviceLimit := 2,
          ConnectedDevices := [], IsActive := true } ∧
    UserService.DisconnectDevice stateAliceConnected "id-9" "d1" true =
      (.error (.idNotFound "id-9"), stateAliceConnected) :=
  have h := disconnectDevice_removes_device stateAliceConnected "id-1" "d1"
    { ID := "id-1", Username := "alice", Password := "secret", CreatedAt := 0,
      ExpiresAt := 1893456000, TrafficLimit := 1000, TrafficUsed := 0, DeviceLimit := 2,
      ConnectedDevices := ["d1"], IsActive := true }
    (by decide) (by decide)
  ⟨h.2.1, h.2.2.1 true, (h.1 "id-9" "d1").2 (by decide) true⟩

/-- C11 (counterexample): two non-negative deltas that an `int64` carries, `2^63 - 1` and
`1`, applied to the usage 0, leave the usage at `-2^63` and not at their sum `2^63`. -/
theorem traffic_sum_wraps_around :
    (mapGet stateAlice.users "id-1").map (fun u => u.TrafficUsed) = some 0 ∧
    (mapGet (addTrafficRepeatedly stateAlice "id-1"
        [(9223372036854775807, true), (1, true)]).users "id-1").map
      (fun u => u.TrafficUsed) = some (-9223372036854775808) ∧
    ¬ ((mapGet (addTrafficRepeatedly stateAlice "id-1"
        [(9223372036854775807, true), (1, true)]).users "id-1").map
      (fun u => u.TrafficUsed) = some (0 + 9223372036854775807 + 1)) := by
  decide

/-- C11 (amended): for a stored account with usage `u0` and non-negative deltas whose
sum with `u0` stays below `2^63`, the usage after applying them one by one with
`UpdateTrafficUsage` is exactly `u0` plus their sum, whatever the traffic limit and whether
or not the writes succeed. -/
theorem traffic_usage_additive (s : JSONStorage) (userID : String) (u : User)
    (calls : List (Int × Bool))
    (hget : mapGet s.users userID = some u)
    (hlow : -2 ^ 63 ≤ u.TrafficUsed)
    (hnn : ∀ c ∈ calls, 0 ≤ c.1)
    (hsum : u.TrafficUsed + (calls.map (fun c => c.1)).sum < 2 ^ 63) :
    mapGet (addTrafficRepeatedly s userID calls).users userID =
      some { u with TrafficUsed := u.TrafficUsed + (calls.map (fun c => c.1)).sum } :=
  addTrafficRepeatedly_lookup calls s userID u hget hlow hnn hsum

/-- C11 (witness): `alice` has the traffic limit 1000; the deltas 600, 0 and 900 take her
usage from 0 to 1500, past the limit. -/
theorem traffic_usage_additive_witness :
    mapGet (addTrafficRepeatedly stateAlice "id-1" [(600, true), (0, false), (900, true)]).users
        "id-1" =
      some
        { ID := "id-1", Username := "alice", Password := "secret", CreatedAt := 0,
          ExpiresAt := 1893456000, TrafficLimit := 1000, TrafficUsed := 1500,
          DeviceLimit := 1, ConnectedDevices := [], IsActive := true } :=
  traffic_usage_additive stateAlice "id-1"
    { ID := "id-1", Username := "alice", Password := "secret", CreatedAt := 0,
      ExpiresAt := 1893456000, TrafficLimit := 1000, TrafficUsed := 0,
      DeviceLimit := 1, ConnectedDevices := [], IsActive := true }
    [(600, true), (0, false), (900, true)] (by decide) (by decide) (by decide) (by decide)

/-- C12 (counterexample): the core accepts the delta -1; `UpdateTrafficUsage` returns
success and takes the usage of `alice` from 0 down to -1. -/
theorem negative_delta_decreases_usage :
    (mapGet stateAlice.users "id-1").map (fun u => u.TrafficUsed) = some 0 ∧
    (UserService.UpdateTrafficUsage stateAlice "id-1" (-1) true).1 = .ok () ∧
    (mapGet (UserService.UpdateTrafficUsage stateAlice "id-1" (-1) true).2.users "id-1").map
      (fun u => u.TrafficUsed) = some (-1) ∧
    ¬ ((0 : Int) ≤ -1) := by
  decide

/-- C12 (amended): for a stored account and a delta that is non-negative and does not take
the usage to `2^63` or more, `UpdateTrafficUsage` leaves the usage at its previous value
plus the delta, so not smaller than before, and returns success when the write succeeds;
and no other registry call changes the usage of an account that is stored before and after
it. -/
theorem traffic_usage_monotone (parse : String → Option Int) (s : JSONStorage)
    (userID : String) (bytesUsed : Int) (w : Bool) (u : User)
    (hget : mapGet s.users userID = some u)
    (hlow : -2 ^ 63 ≤ u.TrafficUsed)
    (hnn : 0 ≤ bytesUsed)
    (hsum : u.TrafficUsed + bytesUsed < 2 ^ 63) :
    (∃ u2, mapGet (UserService.UpdateTrafficUsage s userID bytesUsed w).2.users userID = some u2 ∧
      u2.TrafficUsed = u.TrafficUsed + bytesUsed ∧ u.TrafficUsed ≤ u2.TrafficUsed) ∧
    (UserService.UpdateTrafficUsage s userID bytesUsed true).1 = .ok () ∧
    (∀ op : Op, (∀ k b w2, op ≠ .updateTrafficUsage k b w2) →
      ∀ (id : String) (v v2 : User), mapGet s.users id = some v →
        mapGet (step parse op s).users id = some v2 → v2.TrafficUsed = v.TrafficUsed) := by
  refine ⟨⟨_, updateTrafficUsage_lookup s userID bytesUsed w u hget, ?_, ?_⟩,
    updateTrafficUsage_result s userID bytesUsed u hget,
    fun op hop id v v2 hv hv2 => step_keeps_trafficUsed parse op s hop id v v2 hv hv2⟩
  · exact wrapInt64_of_range _ (by omega) (by omega)
  · show u.TrafficUsed ≤ wrapInt64 (u.TrafficUsed + bytesUsed)
    rw [wrapInt64_of_range _ (by omega) (by omega)]
    omega

/-- C12 (witness): the delta 1500 takes the usage of `alice` from 0 to 1500. -/
theorem traffic_usage_monotone_witness :
    ∃ u2, mapGet (UserService.UpdateTrafficUsage stateAlice "id-1" 1500 true).2.users "id-1" =
        some u2 ∧
      u2.TrafficUsed = 0 + 1500 ∧ (0 : Int) ≤ u2.TrafficUsed :=
  (traffic_usage_monotone parseFixed stateAlice "id-1" 1500 true
    { ID := "id-1", Username := "alice", Password := "secret", CreatedAt := 0,
      ExpiresAt := 1893456000, TrafficLimit := 1000, TrafficUsed := 0,
      DeviceLimit := 1, ConnectedDevices := [], IsActive := true }
    (by decide) (by decide) (by decide) (by decide)).1

/-- C13: `UpdateUser` returns the error `idNotFound` and changes nothing when no account is
stored under the id. For a stored account and a patch whose `expires_at`, if present,
parses, the stored record afterwards has the patch's value in each of `expiresAt`,
`trafficLimit`, `deviceLimit` and `isActive` that the patch carries and its previous value
in each that the patch omits; its id, username, password, creation time, usage and
connected devices are as before, every other account is as before, and with a successful
write the returned record is the stored one. -/
theorem updateUser_sparse_patch (parse : String → Option Int) (s : JSONStorage)
    (id : String) (req : UpdateUserRequest) (u : User)
    (hget : mapGet s.users id = some u)
    (hwf : ∀ text, req.ExpiresAt = some text → ∃ t, parse text = some t) :
    (∃ r : User,
      (UserService.UpdateUser parse s id req true).1 = .ok r ∧
      (∀ w, mapGet (UserService.UpdateUser parse s id req w).2.users id = some r) ∧
      (∀ text t, req.ExpiresAt = some text → parse text = some t → r.ExpiresAt = t) ∧
      (req.ExpiresAt = none → r.ExpiresAt = u.ExpiresAt) ∧
      r.TrafficLimit = req.TrafficLimit.getD u.TrafficLimit ∧
      r.DeviceLimit = req.DeviceLimit.getD u.DeviceLimit ∧
      r.IsActive = req.IsActive.getD u.IsActive ∧
      r.ID = u.ID ∧ r.Username = u.Username ∧ r.Password = u.Password ∧
      r.CreatedAt = u.CreatedAt ∧ r.TrafficUsed = u.TrafficUsed ∧
      r.ConnectedDevices = u.ConnectedDevices) ∧
    (∀ (w : Bool) (other : String), other ≠ id →
      mapGet (UserService.UpdateUser parse s id req w).2.users other = mapGet s.users other) ∧
    (∀ (absent : String) (w : Bool), mapGet s.users absent = none →
      UserService.UpdateUser parse s absent req w = (.error (.idNotFound absent), s)) := by
  have hpatch : ∀ e : Option Int,
      (UserService.applyPatch u e req).TrafficLimit = req.TrafficLimit.getD u.TrafficLimit ∧
      (UserService.applyPatch u e req).IsActive = req.IsActive.getD u.IsActive ∧
      (UserService.applyPatch u e req).ID = u.ID ∧
      (UserService.applyPatch u e req).Password = u.Password ∧
      (UserService.applyPatch u e req).CreatedAt = u.CreatedAt ∧
      (UserService.applyPatch u e req).ExpiresAt = e.getD u.ExpiresAt := by
    intro e
    unfold UserService.applyPatch
    cases e <;> cases req.TrafficLimit <;> cases req.DeviceLimit <;> cases req.IsActive <;>
      simp
  obtain ⟨e, he, hexp⟩ : ∃ e : Option Int,
      (match req.ExpiresAt with
        | none => some none
        | some text =>
          match parse text with
          | none => none
          | some t => some (some t)) = some e ∧
      ((∀ text t, req.ExpiresAt = some text → parse text = some t → e = some t) ∧
        (req.ExpiresAt = none → e = none)) := by
    cases hreq : req.ExpiresAt with
    | none => exact ⟨none, rfl, by simp⟩
    | some text =>
      obtain ⟨t, ht⟩ := hwf text hreq
      refine ⟨some t, by simp [ht], ?_, by simp⟩
      intro text2 t2 h1 h2
      cases h1
      rw [ht] at h2
      exact h2
  refine ⟨⟨UserService.applyPatch u e req, ?_, ?_, ?_, ?_, (hpatch e).1,
    applyPatch_DeviceLimit u e req, (hpatch e).2.1, (hpatch e).2.2.1,
    applyPatch_Username u e req, (hpatch e).2.2.2.1, (hpatch e).2.2.2.2.1,
    applyPatch_TrafficUsed u e req, applyPatch_ConnectedDevices u e req⟩, ?_, ?_⟩
  · rw [updateUser_ok parse s id req true u e hget he]; rfl
  · intro w
    rw [updateUser_ok parse s id req w u e hget he]
    simp [mapGet_mapSet_self]
  · intro text t h1 h2
    rw [(hpatch e).2.2.2.2.2, hexp.1 text t h1 h2]; rfl
  · intro h1
    rw [(hpatch e).2.2.2.2.2, hexp.2 h1]; rfl
  · intro w other hne
    rw [updateUser_ok parse s id req w u e hget he]
    simp only [saveToFile_users]
    exact mapGet_mapSet_ne s.users id other _ (Ne.symm hne)
  · intro absent w habs
    simp [UserService.UpdateUser, JSONStorage.GetUser, habs]

/-- C13 (witness): a patch that only switches `alice` to inactive. -/
theorem updateUser_sparse_patch_witness :
    ∃ r : User,
      (UserService.UpdateUser parseFixed stateAliceConnected "id-1"
        { ExpiresAt := none, TrafficLimit := none, DeviceLimit := none, IsActive := some false }
        true).1 = .ok r ∧
      r.IsActive = false ∧ r.DeviceLimit = 2 ∧ r.TrafficLimit = 1000 ∧
      r.ExpiresAt = 1893456000 ∧ r.ConnectedDevices = ["d1"] :=
  have h := (updateUser_sparse_patch parseFixed stateAliceConnected "id-1"
    { ExpiresAt := none, TrafficLimit := none, DeviceLimit := none, IsActive := some false }
    { ID := "id-1", Username := "alice", Password := "secret", CreatedAt := 0,
      ExpiresAt := 1893456000, TrafficLimit := 1000, TrafficUsed := 0, DeviceLimit := 2,
      ConnectedDevices := ["d1"], IsActive := true }
    (by decide) (by intro text h; cases h)).1
  h.elim fun r hr =>
    ⟨r, hr.1, hr.2.2.2.2.2.2.1, hr.2.2.2.2.2.1, hr.2.2.2.2.1, hr.2.2.2.1 rfl,
      hr.2.2.2.2.2.2.2.2.2.2.2.2⟩

/-- C14: `DeleteUser` returns the error `idNotFound` and leaves the registry unchanged when
no account is stored under the id. For a stored account it returns success when the write
succeeds, and removes exactly that account: the map afterwards is the map before without
the entry of the id, so that `GetUser` of the id fails and every other id gives the record
it gave before. -/
theorem deleteUser_removes_exactly (s : JSONStorage) (id : String) (u : User)
    (hget : mapGet s.users id = some u) :
    (UserService.DeleteUser s id true).1 = .ok () ∧
    (∀ w : Bool,
      (UserService.DeleteUser s id w).2.users =
        s.users.filter (fun p => decide (p.1 ≠ id)) ∧
      UserService.GetUser (UserService.DeleteUser s id w).2 id = .error (.idNotFound id) ∧
      (∀ other : String, other ≠ id →
        UserService.GetUser (UserService.DeleteUser s id w).2 other =
          UserService.GetUser s other)) ∧
    (∀ (absent : String) (w : Bool), mapGet s.users absent = none →
      UserService.DeleteUser s absent w = (.error (.idNotFound absent), s)) := by
  refine ⟨?_, ?_, ?_⟩
  · simp [UserService.DeleteUser, JSONStorage.DeleteUser, hget, JSONStorage.saveToFile]
  · intro w
    have husers : (UserService.DeleteUser s id w).2.users = mapDelete s.users id := by
      rw [deleteUser_users_eq, hget]
    refine ⟨by rw [husers]; rfl, ?_, ?_⟩
    · simp [UserService.GetUser, JSONStorage.GetUser, husers, mapGet_mapDelete]
    · intro other hne
      simp [UserService.GetUser, JSONStorage.GetUser, husers, mapGet_mapDelete, hne]
  · intro absent w habs
    simp [UserService.DeleteUser, JSONStorage.DeleteUser, habs]

/-- C14 (witness): deleting `alice` empties the registry; an unknown id is reported. -/
theorem deleteUser_removes_exactly_witness :
    (UserService.DeleteUser stateAlice "id-1" true).1 = .ok () ∧
    (UserService.DeleteUser stateAlice "id-1" true).2.users = [] ∧
    UserService.GetUser (UserService.DeleteUser stateAlice "id-1" true).2 "id-1" =
      .error (.idNotFound "id-1") ∧
    UserService.DeleteUser stateAlice "id-9" true = (.error (.idNotFound "id-9"), stateAlice) :=
  have h := deleteUser_removes_exactly stateAlice "id-1"
    { ID := "id-1", Username := "alice", Password := "secret", CreatedAt := 0,
      ExpiresAt := 1893456000, TrafficLimit := 1000, TrafficUsed := 0, DeviceLimit := 1,
      ConnectedDevices := [], IsActive := true }
    (by decide)
  ⟨h.1, (h.2.1 true).1, (h.2.1 true).2.1, h.2.2 "id-9" true (by decide)⟩

/-- C15 (counterexample): `alice` expires at 1893456000; a sweep that observes exactly
that instant does not remove her. -/
theorem sweep_keeps_account_expiring_now :
    (mapGet stateAlice.users "id-1").map (fun u => u.ExpiresAt) = some 1893456000 ∧
    (mapGet (stateAlice.cleanupExpiredUsers 1893456000 true).users "id-1").map
      (fun u => u.ExpiresAt) = some 1893456000 ∧
    ¬ ((stateAlice.cleanupExpiredUsers 1893456000 true).users =
        stateAlice.users.filter (fun p => decide (1893456000 < p.2.ExpiresAt))) := by
  decide

/-- C15 (amended): with the instant `now` of the sweep explicit, the accounts stored after
`cleanupExpiredUsers` are exactly the accounts stored before whose `expiresAt` is at or
after `now`, unmodified and in their order: every account with `expiresAt` strictly before
`now` is removed, and none with `expiresAt` equal to or after `now` is removed or
modified. -/
theorem sweep_removes_exactly_expired (s : JSONStorage) (now : Int) (w : Bool)
    (hkeys : (s.users.map (fun p => p.1)).Nodup) :
    (s.cleanupExpiredUsers now w).users =
      s.users.filter (fun p => decide (now ≤ p.2.ExpiresAt)) ∧
    (∀ p ∈ s.users, p.2.ExpiresAt < now → p ∉ (s.cleanupExpiredUsers now w).users) ∧
    (∀ p ∈ s.users, now ≤ p.2.ExpiresAt → p ∈ (s.cleanupExpiredUsers now w).users) := by
  have h := cleanupExpiredUsers_eq_filter s now w hkeys
  refine ⟨h, ?_, ?_⟩
  · intro p _ hlt hmem
    rw [h] at hmem
    have := (List.mem_filter.mp hmem).2
    simp only [decide_eq_true_eq] at this
    omega
  · intro p hp hle
    rw [h]
    exact List.mem_filter.mpr ⟨hp, by simpa using hle⟩

/-- C15 (witness): a sweep one second after the expiry of `alice` removes her. -/
theorem sweep_removes_exactly_expired_witness :
    (stateAlice.cleanupExpiredUsers 1893456001 true).users = [] ∧
    (stateAlice.cleanupExpiredUsers 1893456000 true).users = stateAlice.users :=
  ⟨(sweep_removes_exactly_expired stateAlice 1893456001 true (by decide)).1,
    (sweep_removes_exactly_expired stateAlice 1893456000 true (by decide)).1⟩

/-- C16 (counterexample): for an output without either label `GenerateRealityKeypair`
returns success with an empty result, not an error. -/
theorem keypair_without_labels_succeeds :
    (∀ line ∈ splitOnChar (Char.ofNat 10) "unknown command generate\n".data,
      containsText line "PrivateKey:".data = false ∧
        containsText line "PublicKey:".data = false) ∧
    serviceExample.GenerateRealityKeypair (some "unknown command generate\n") =
      (.ok { private_key := none, public_key := none }, none) ∧
    isError (serviceExample.GenerateRealityKeypair (some "unknown command generate\n")).1 =
      false := by
  decide

/-- C16 (amended): for every output of the key-generation subcommand in which no line
contains `PrivateKey:` and no line contains `PublicKey:`, `GenerateRealityKeypair` returns
success with neither key in the result and writes no key file; it returns an error exactly
when the subcommand itself fails. -/
theorem keypair_without_labels_empty (cs : ConfigService) (text : String)
    (hno : ∀ line ∈ splitOnChar (Char.ofNat 10) text.data,
      containsText line "PrivateKey:".data = false ∧
        containsText line "PublicKey:".data = false) :
    cs.GenerateRealityKeypair (some text) =
      (.ok { private_key := none, public_key := none }, none) ∧
    (∀ output : Option String,
      isError (cs.GenerateRealityKeypair output).1 = true ↔ output = none) := by
  constructor
  · simp only [ConfigService.GenerateRealityKeypair]
    rw [foldl_keypairLine_none _ _ hno]
  · intro output
    cases output <;> simp [ConfigService.GenerateRealityKeypair, isError]

/-- C16 (witness): the empty output. -/
theorem keypair_without_labels_empty_witness :
    serviceExample.GenerateRealityKeypair (some "") =
      (.ok { private_key := none, public_key := none }, none) :=
  (keypair_without_labels_empty serviceExample "" (by decide)).1

/-- C17 (the code at the failing input): for the file content `{`, which the decoder
rejects, `loadFromFile` returns the decoder's error, and `NewJSONStorage` nevertheless
hands out a registry, empty and usable: a following `CreateUser` succeeds. For every
decoder, a missing file and an empty file give the empty account set. -/
theorem newJSONStorage_drops_load_error :
    (JSONStorage.loadFromFile emptyStorage unmarshalFixed (.data "\x7b") true).1 =
      .error .unmarshalFailed ∧
    JSONStorage.NewJSONStorage unmarshalFixed (.data "\x7b") true = { users := [], file := none } ∧
    isError (UserService.CreateUser parseFixed
      (JSONStorage.NewJSONStorage unmarshalFixed (.data "\x7b") true) (aliceRequest 1) "id-1" 0
      true).1 = false ∧
    (∀ (unmarshal : String → Except Error Unit × UserMap) (w : Bool),
      (JSONStorage.NewJSONStorage unmarshal .notExist w).users = [] ∧
      (JSONStorage.NewJSONStorage unmarshal (.data "") w).users = []) := by
  refine ⟨by decide, by decide, by decide, ?_⟩
  intro unmarshal w
  constructor
  · simp [JSONStorage.NewJSONStorage, JSONStorage.loadFromFile]
  · simp [JSONStorage.NewJSONStorage, JSONStorage.loadFromFile, String.utf8ByteSize]

/-- C18: for every list of accounts `buildConfig` produces exactly four inbounds; the
mixed inbound has no user, the trojan inbound has one name and password entry for every
account, the vless and vless-reality inbounds one name and uuid entry for every account,
each in the order of the input and of its length. -/
theorem buildConfig_inbound_user_lists (cs : ConfigService) (keyFile : Option String)
    (users : List User) :
    (cs.buildConfig keyFile users).Inbounds.length = 4 ∧
    (cs.buildConfig keyFile users).Inbounds.map (fun i => (i.Typ, i.Tag, i.Users)) =
      [ ("mixed", "mixed-in", []),
        ("trojan", "trojan-in", users.map
          (fun u => ({ Name := u.Username, Password := u.Password, UUID := "" } : UserConfig))),
        ("vless", "vless-in", users.map
          (fun u => ({ Name := u.Username, Password := "", UUID := u.ID } : UserConfig))),
        ("vless", "vless-reality-in", users.map
          (fun u => ({ Name := u.Username, Password := "", UUID := u.ID } : UserConfig))) ] ∧
    (cs.buildConfig keyFile users).Inbounds.map (fun i => i.Users.length) =
      [0, users.length, users.length, users.length] := by
  refine ⟨rfl, ?_, ?_⟩
  · simp [ConfigService.buildConfig, buildTrojanUsers_eq_map, buildVlessUsers_eq_map]
  · simp [ConfigService.buildConfig, buildTrojanUsers_eq_map, buildVlessUsers_eq_map]

/-- C19: for any two account lists and the same key-file content (or its absence)
`buildConfig` gives the same document but for the user lists of the inbounds: the same
listener parameters and TLS blocks, the same reality block, the same other sections. The
reality block has the handshake `www.google.com:443`, the short id `0123456789abcdef` and
as private key the key-file content without its leading and trailing white space when the
file is readable, the fixed fallback key otherwise. -/
theorem reality_block_independent_of_accounts (cs : ConfigService)
    (keyFile : Option String) (users1 users2 : List User) :
    (cs.buildConfig keyFile users1).Inbounds.map (fun i => { i with Users := [] }) =
      (cs.buildConfig keyFile users2).Inbounds.map (fun i => { i with Users := [] }) ∧
    { cs.buildConfig keyFile users1 with Inbounds := [] } =
      { cs.buildConfig keyFile users2 with Inbounds := [] } ∧
    (cs.buildConfig keyFile users1).Inbounds.map
        (fun i => i.TLS.bind (fun tls => tls.Reality)) =
      [ none, none, none,
        some
          { Enabled := true
            Handshake := { Server := "www.google.com", ServerPort := 443 }
            PrivateKey :=
              match keyFile with
              | some data => TrimSpace data
              | none => "oNglJo5OpvsjAjIWnGgVaQ_EUQP5_YKnGmnNdvhTCXM"
            ShortID := ["0123456789abcdef"] } ] ∧
    (∀ data : String, ∃ pre post : List Char,
      data.data = pre ++ (TrimSpace data).data ++ post ∧
      (∀ c ∈ pre, isSpace c = true) ∧ (∀ c ∈ post, isSpace c = true) ∧
      (∀ c, (TrimSpace data).data.head? = some c → isSpace c = false) ∧
      (∀ c, (TrimSpace data).data.getLast? = some c → isSpace c = false)) := by
  refine ⟨?_, ?_, ?_, trimSpace_spec⟩
  · simp [ConfigService.buildConfig]
  · simp [ConfigService.buildConfig]
  · cases keyFile <;> simp [ConfigService.buildConfig, ConfigService.getRealityPrivateKey]

/-- C20: `ReloadSingBox` returns success with the signal as its only step when the signal
is delivered; when the signal fails it goes on to the steps of a restart (stop, wait,
start) and returns the result of `RestartSingBox`. `RestartSingBox` returns an error
exactly when the start fails, whatever the stop reports. -/
theorem reload_and_restart_results (cs : ConfigService) (stop start : Bool) :
    cs.ReloadSingBox { signal := true, stop := stop, start := start } =
      (.ok (), [.signal]) ∧
    (cs.ReloadSingBox { signal := false, stop := stop, start := start }).1 =
      (cs.RestartSingBox { signal := false, stop := stop, start := start }).1 ∧
    (cs.ReloadSingBox { signal := false, stop := stop, start := start }).2 =
      [.signal, .stop, .wait, .start] ∧
    (∀ signal : Bool,
      (cs.RestartSingBox { signal := signal, stop := stop, start := start }).2 =
        [.stop, .wait, .start] ∧
      (isError (cs.RestartSingBox { signal := signal, stop := stop, start := start }).1 = true ↔
        start = false) ∧
      cs.RestartSingBox { signal := signal, stop := stop, start := start } =
        cs.RestartSingBox { signal := signal, stop := !stop, start := start }) := by
  refine ⟨rfl, rfl, ?_, ?_⟩
  · cases start <;> rfl
  · intro signal
    cases start <;> simp [ConfigService.RestartSingBox, isError]

/-- C23: when the write fails during `CreateUser` of a username that is not stored (the
expiry parsing, the generated id fresh), `CreateUser` returns the write error, the file is as
before, and the new account is in the in-memory map all the same: a following
`GetUserByUsername` and a following `GetUser` return it. -/
theorem createUser_write_failure_keeps_account (parse : String → Option Int)
    (s : JSONStorage) (req : CreateUserRequest) (newID : String) (now t : Int)
    (hname : ∀ p ∈ s.users, p.2.Username ≠ req.Username)
    (hparse : parse req.ExpiresAt = some t)
    (hfresh : mapGet s.users newID = none) :
    (UserService.CreateUser parse s req newID now false).1 = .error .writeFailed ∧
    (UserService.CreateUser parse s req newID now false).2.file = s.file ∧
    (∃ r : User,
      UserService.GetUserByUsername (UserService.CreateUser parse s req newID now false).2
        req.Username = .ok r ∧
      UserService.GetUser (UserService.CreateUser parse s req newID now false).2 newID =
        .ok r ∧
      r.ID = newID ∧ r.Username = req.Username ∧ r.Password = req.Password ∧
      r.ExpiresAt = t) := by
  have hname2 : ∃ e, s.GetUserByUsername req.Username = .error e := by
    have := (getUserByUsername_error_iff s req.Username).mpr hname
    cases hg : s.GetUserByUsername req.Username with
    | ok u => rw [hg] at this; simp [isError] at this
    | error e => exact ⟨e, rfl⟩
  obtain ⟨e, he⟩ := hname2
  let r : User :=
    { ID := newID, Username := req.Username, Password := req.Password,
      CreatedAt := now, ExpiresAt := t, TrafficLimit := req.TrafficLimit,
      TrafficUsed := 0, DeviceLimit := req.DeviceLimit, ConnectedDevices := [],
      IsActive := true }
  have hres : UserService.CreateUser parse s req newID now false =
      (.error .writeFailed, ⟨s.users ++ [(newID, r)], s.file⟩) := by
    simp [UserService.CreateUser, he, hparse, JSONStorage.CreateUser, hfresh,
      JSONStorage.saveToFile, mapSet_of_mapGet_none, r]
  rw [hres]
  refine ⟨rfl, rfl, r, ?_, ?_, rfl, rfl, rfl, rfl⟩
  · exact getUserByUsername_append_new s.users s.file newID r hname
  · simp only [UserService.GetUser, JSONStorage.GetUser]
    rw [← mapSet_of_mapGet_none r hfresh, mapGet_mapSet_self]

/-- C23 (witness): creating `alice` in the empty registry with a failing write. -/
theorem createUser_write_failure_keeps_account_witness :
    (UserService.CreateUser parseFixed emptyStorage (aliceRequest 1) "id-1" 0 false).1 =
      .error .writeFailed ∧
    isError (UserService.GetUserByUsername
      (UserService.CreateUser parseFixed emptyStorage (aliceRequest 1) "id-1" 0 false).2
      "alice") = false :=
  have h := createUser_write_failure_keeps_account parseFixed emptyStorage (aliceRequest 1)
    "id-1" 0 1893456000 (by decide) (by decide) (by decide)
  ⟨h.1, by decide⟩

/-- C22 (counterexample): after a failed write the file lacks the device `d1` that the map
has; `AddConnectedDevice` for `d1` then returns success without a write, and the file still
differs from the map. -/
theorem addConnectedDevice_success_without_write :
    (stateStaleFile.AddConnectedDevice "id-1" "d1" true).1 = .ok () ∧
    (stateStaleFile.AddConnectedDevice "id-1" "d1" true).2.file ≠
      some (stateStaleFile.AddConnectedDevice "id-1" "d1" true).2.users := by
  decide

/-- C22 (amended): whenever `CreateUser`, `UpdateUser`, `DeleteUser`,
`RemoveConnectedDevice` or `UpdateTrafficUsage` returns success, the file holds the
serialization of the whole in-memory map, and so it does when `AddConnectedDevice` returns
success for a device that was not connected; `AddConnectedDevice` for a device that is
already connected returns success without a write and leaves map and file as they were.
Whenever the write fails, each of the six returns an error, but for that one case, in which
no write is made. -/
theorem success_means_persisted (s : JSONStorage) :
    (∀ user w, (s.CreateUser user w).1 = .ok () →
      (s.CreateUser user w).2.file = some (s.CreateUser user w).2.users) ∧
    (∀ id user w, (s.UpdateUser id user w).1 = .ok () →
      (s.UpdateUser id user w).2.file = some (s.UpdateUser id user w).2.users) ∧
    (∀ id w, (s.DeleteUser id w).1 = .ok () →
      (s.DeleteUser id w).2.file = some (s.DeleteUser id w).2.users) ∧
    (∀ id deviceID w, (s.RemoveConnectedDevice id deviceID w).1 = .ok () →
      (s.RemoveConnectedDevice id deviceID w).2.file =
        some (s.RemoveConnectedDevice id deviceID w).2.users) ∧
    (∀ id bytesUsed w, (s.UpdateTrafficUsage id bytesUsed w).1 = .ok () →
      (s.UpdateTrafficUsage id bytesUsed w).2.file =
        some (s.UpdateTrafficUsage id bytesUsed w).2.users) ∧
    (∀ id deviceID w, (s.AddConnectedDevice id deviceID w).1 = .ok () →
      (s.AddConnectedDevice id deviceID w).2.file =
          some (s.AddConnectedDevice id deviceID w).2.users ∨
        (∃ u, mapGet s.users id = some u ∧ deviceID ∈ u.ConnectedDevices)) ∧
    (∀ id deviceID w u, mapGet s.users id = some u → deviceID ∈ u.ConnectedDevices →
      s.AddConnectedDevice id deviceID w = (.ok (), s)) ∧
    (∀ user, isError (s.CreateUser user false).1 = true) ∧
    (∀ id user, isError (s.UpdateUser id user false).1 = true) ∧
    (∀ id, isError (s.DeleteUser id false).1 = true) ∧
    (∀ id deviceID, isError (s.RemoveConnectedDevice id deviceID false).1 = true) ∧
    (∀ id bytesUsed, isError (s.UpdateTrafficUsage id bytesUsed false).1 = true) ∧
    (∀ id deviceID, isError (s.AddConnectedDevice id deviceID false).1 = true ∨
      (∃ u, mapGet s.users id = some u ∧ deviceID ∈ u.ConnectedDevices)) := by
  refine ⟨?_, ?_, ?_, ?_, ?_, ?_, ?_, ?_, ?_, ?_, ?_, ?_, ?_⟩
  · intro user w
    cases h : mapGet s.users user.ID <;> cases w <;>
      simp [JSONStorage.CreateUser, h, JSONStorage.saveToFile]
  · intro id user w
    cases h : mapGet s.users id <;> cases w <;>
      simp [JSONStorage.UpdateUser, h, JSONStorage.saveToFile]
  · intro id w
    cases h : mapGet s.users id <;> cases w <;>
      simp [JSONStorage.DeleteUser, h, JSONStorage.saveToFile]
  · intro id deviceID w
    cases h : mapGet s.users id <;> cases w <;>
      simp [JSONStorage.RemoveConnectedDevice, h, JSONStorage.saveToFile]
  · intro id bytesUsed w
    cases h : mapGet s.users id <;> cases w <;>
      simp [JSONStorage.UpdateTrafficUsage, h, JSONStorage.saveToFile]
  · intro id deviceID w
    cases h : mapGet s.users id with
    | none => simp [JSONStorage.AddConnectedDevice, h]
    | some u =>
      by_cases hmem : deviceID ∈ u.ConnectedDevices
      · intro _; exact Or.inr ⟨u, rfl, hmem⟩
      · have hany : u.ConnectedDevices.any (fun device => device == deviceID) = false := by
          rw [Bool.eq_false_iff]; intro h2; exact hmem ((any_beq_iff_mem _ _).mp h2)
        cases w <;> simp [JSONStorage.AddConnectedDevice, h, hany, JSONStorage.saveToFile]
  · intro id deviceID w u h hmem
    have hany := (any_beq_iff_mem u.ConnectedDevices deviceID).mpr hmem
    simp [JSONStorage.AddConnectedDevice, h, hany]
  · intro user
    cases h : mapGet s.users user.ID <;>
      simp [JSONStorage.CreateUser, h, JSONStorage.saveToFile, isError]
  · intro id user
    cases h : mapGet s.users id <;>
      simp [JSONStorage.UpdateUser, h, JSONStorage.saveToFile, isError]
  · intro id
    cases h : mapGet s.users id <;>
      simp [JSONStorage.DeleteUser, h, JSONStorage.saveToFile, isError]
  · intro id deviceID
    cases h : mapGet s.users id <;>
      simp [JSONStorage.RemoveConnectedDevice, h, JSONStorage.saveToFile, isError]
  · intro id bytesUsed
    cases h : mapGet s.users id <;>
      simp [JSONStorage.UpdateTrafficUsage, h, JSONStorage.saveToFile, isError]
  · intro id deviceID
    cases h : mapGet s.users id with
    | none => simp [JSONStorage.AddConnectedDevice, h, isError]
    | some u =>
      by_cases hmem : deviceID ∈ u.ConnectedDevices
      · exact Or.inr ⟨u, rfl, hmem⟩
      · have hany : u.ConnectedDevices.any (fun device => device == deviceID) = false := by
          rw [Bool.eq_false_iff]; intro h2; exact hmem ((any_beq_iff_mem _ _).mp h2)
        simp [JSONStorage.AddConnectedDevice, h, hany, JSONStorage.saveToFile, isError]

/-- C22 (witness): on the registry with the stale file, a successful `UpdateTrafficUsage`
brings the file up to date, and `AddConnectedDevice` of the connected `d1` changes
nothing. -/
theorem success_means_persisted_witness :
    (stateStaleFile.UpdateTrafficUsage "id-1" 10 true).2.file =
      some (stateStaleFile.UpdateTrafficUsage "id-1" 10 true).2.users ∧
    stateStaleFile.AddConnectedDevice "id-1" "d1" false = (.ok (), stateStaleFile) :=
  have h := success_means_persisted stateStaleFile
  ⟨h.2.2.2.2.1 "id-1" 10 true (by decide),
    h.2.2.2.2.2.2.1 "id-1" "d1" false
      { ID := "id-1", Username := "alice", Password := "secret", CreatedAt := 0,
        ExpiresAt := 1893456000, TrafficLimit := 1000, TrafficUsed := 0, DeviceLimit := 2,
        ConnectedDevices := ["d1"], IsActive := true }
      (by decide) (by decide)⟩

/-- C26: a call that is rejected for a logical reason leaves the registry as it was.
Whenever `CreateUser`, `UpdateUser`, `DeleteUser`, `DisconnectDevice`,
`UpdateTrafficUsage` or `ConnectDevice` returns an error other than the write error, the
state after the call is the state before it. The listed causes give such errors:
`CreateUser` with a stored username or a malformed `expires_at`; `UpdateUser` with an
absent id, or with a malformed `expires_at` whatever else the patch carries; `DeleteUser`,
`DisconnectDevice` and `UpdateTrafficUsage` with an absent id; `ConnectDevice` with an
absent id or with `CanConnect` false. -/
theorem logical_rejections_leave_state (parse : String → Option Int) (s : JSONStorage) :
    (∀ req newID now w e, (UserService.CreateUser parse s req newID now w).1 = .error e →
      e ≠ .writeFailed → (UserService.CreateUser parse s req newID now w).2 = s) ∧
    (∀ id req w e, (UserService.UpdateUser parse s id req w).1 = .error e →
      e ≠ .writeFailed → (UserService.UpdateUser parse s id req w).2 = s) ∧
    (∀ id w e, (UserService.DeleteUser s id w).1 = .error e →
      e ≠ .writeFailed → (UserService.DeleteUser s id w).2 = s) ∧
    (∀ id deviceID w e, (UserService.DisconnectDevice s id deviceID w).1 = .error e →
      e ≠ .writeFailed → (UserService.DisconnectDevice s id deviceID w).2 = s) ∧
    (∀ id bytesUsed w e, (UserService.UpdateTrafficUsage s id bytesUsed w).1 = .error e →
      e ≠ .writeFailed → (UserService.UpdateTrafficUsage s id bytesUsed w).2 = s) ∧
    (∀ id deviceID now w e, (UserService.ConnectDevice s id deviceID now w).1 = .error e →
      e ≠ .writeFailed → (UserService.ConnectDevice s id deviceID now w).2 = s) ∧
    (∀ req newID now w, (∃ p ∈ s.users, p.2.Username = req.Username) →
      UserService.CreateUser parse s req newID now w =
        (.error (.usernameExists req.Username), s)) ∧
    (∀ req newID now w, parse req.ExpiresAt = none →
      isError (UserService.CreateUser parse s req newID now w).1 = true ∧
        (UserService.CreateUser parse s req newID now w).2 = s) ∧
    (∀ id req w, mapGet s.users id = none →
      UserService.UpdateUser parse s id req w = (.error (.idNotFound id), s)) ∧
    (∀ id req w u text, mapGet s.users id = some u → req.ExpiresAt = some text →
      parse text = none →
      UserService.UpdateUser parse s id req w = (.error .invalidExpiresAt, s)) ∧
    (∀ id deviceID bytesUsed w, mapGet s.users id = none →
      UserService.DeleteUser s id w = (.error (.idNotFound id), s) ∧
      UserService.DisconnectDevice s id deviceID w = (.error (.idNotFound id), s) ∧
      UserService.UpdateTrafficUsage s id bytesUsed w = (.error (.idNotFound id), s) ∧
      ∀ now, UserService.ConnectDevice s id deviceID now w = (.error (.idNotFound id), s)) ∧
    (∀ id deviceID now w u, mapGet s.users id = some u → u.CanConnect now deviceID = false →
      UserService.ConnectDevice s id deviceID now w = (.error .cannotConnect, s)) := by
  refine ⟨?_, ?_, ?_, ?_, ?_, ?_, ?_, ?_, ?_, ?_, ?_, ?_⟩
  · intro req newID now w e h he
    exact createUser_rejected_unchanged parse s req newID now w e h he
  · intro id req w e h he
    exact updateUser_rejected_unchanged parse s id req w e h he
  · intro id w e h he
    exact (storage_rejected_unchanged s id "" 0 w e he).1 h
  · intro id deviceID w e h he
    exact (storage_rejected_unchanged s id deviceID 0 w e he).2.1 h
  · intro id bytesUsed w e h he
    exact (storage_rejected_unchanged s id "" bytesUsed w e he).2.2 h
  · intro id deviceID now w e h he
    exact connectDevice_rejected_unchanged s id deviceID now w e h he
  · intro req newID now w h
    exact createUser_existing_username parse s req newID now w h
  · intro req newID now w hparse
    cases hname : s.GetUserByUsername req.Username with
    | ok u => simp [UserService.CreateUser, hname, isError]
    | error e1 => simp [UserService.CreateUser, hname, hparse, isError]
  · intro id req w hid
    simp [UserService.UpdateUser, JSONStorage.GetUser, hid]
  · intro id req w u text hid hreq hparse
    simp [UserService.UpdateUser, JSONStorage.GetUser, hid, hreq, hparse]
  · intro id deviceID bytesUsed w hid
    simp [UserService.DeleteUser, JSONStorage.DeleteUser, UserService.DisconnectDevice,
      JSONStorage.RemoveConnectedDevice, UserService.UpdateTrafficUsage,
      JSONStorage.UpdateTrafficUsage, UserService.ConnectDevice, JSONStorage.GetUser, hid]
  · intro id deviceID now w u hid hcan
    simp [UserService.ConnectDevice, JSONStorage.GetUser, hid, hcan]

/-- C26 (witness): a patch for `alice` with a malformed `expires_at` that also carries the
three other fields is refused and changes nothing; so is a second `alice` and a connect
of `d2` at the device limit. -/
theorem logical_rejections_leave_state_witness :
    UserService.UpdateUser parseFixed stateAliceConnected "id-1"
        { ExpiresAt := some "tomorrow", TrafficLimit := some 5, DeviceLimit := some 9,
          IsActive := some false } true =
      (.error .invalidExpiresAt, stateAliceConnected) ∧
    (UserService.CreateUser parseFixed stateAliceConnected (aliceRequest 1) "id-2" 9 true).2 =
      stateAliceConnected :=
  have h := logical_rejections_leave_state parseFixed stateAliceConnected
  ⟨h.2.2.2.2.2.2.2.2.2.1 "id-1" _ true
      { ID := "id-1", Username := "alice", Password := "secret", CreatedAt := 0,
        ExpiresAt := 1893456000, TrafficLimit := 1000, TrafficUsed := 0, DeviceLimit := 2,
        ConnectedDevices := ["d1"], IsActive := true }
      "tomorrow" (by decide) rfl (by decide),
    h.1 (aliceRequest 1) "id-2" 9 true (.usernameExists "alice") (by decide) (by decide)⟩

/-- C24 (the code at the failing input): two `CreateUser` calls for `alice` on the empty
registry, interleaved check, check, insert, insert: both pass the username check before
either inserts, both return success, and the registry then holds two accounts named
`alice`. Run one after the other, the second call is refused. The two steps of a call,
taken without another call in between, are `UserService.CreateUser`. -/
theorem concurrent_creates_duplicate_username :
    (runSchedule parseFixed twoAliceCalls [0, 1, 0, 1]).storage.users.map
        (fun p => (p.1, p.2.Username)) =
      [("id-1", "alice"), ("id-2", "alice")] ∧
    ¬ ((runSchedule parseFixed twoAliceCalls [0, 1, 0, 1]).storage.users.map
        (fun p => p.2.Username)).Nodup ∧
    (runSchedule parseFixed twoAliceCalls [0, 1, 0, 1]).calls.map
        (fun c =>
          match c with
          | .finished (.ok user) => some user.ID
          | _ => none) =
      [some "id-1", some "id-2"] ∧
    (runSchedule parseFixed twoAliceCalls [0, 0, 1, 1]).calls.map
        (fun c =>
          match c with
          | .finished (.error e) => some e
          | _ => none) =
      [none, some (.usernameExists "alice")] ∧
    (∀ (parse : String → Option Int) (s : JSONStorage) (call : CreateCall),
      stepCall parse (stepCall parse s (.ready call)).2 (stepCall parse s (.ready call)).1 =
        (.finished (UserService.CreateUser parse s call.req call.newID call.now call.w).1,
          (UserService.CreateUser parse s call.req call.newID call.now call.w).2)) := by
  refine ⟨by decide, by decide, by decide, by decide, createUser_eq_two_steps⟩

/-- C25 (counterexample): `GetUser` and `GetUserByUsername` return the address 0 at which
the map keeps `alice`; after the caller assigns another expiry through it, calling no
function of the registry, `GetUser` gives the changed record. -/
theorem getUser_hands_out_live_record :
    liveAlice.GetUser "id-1" = .ok 0 ∧
    liveAlice.GetUserByUsername "alice" = .ok 0 ∧
    (liveAlice.assign 0 userExpiringAt100).GetUser "id-1" = .ok 0 ∧
    (liveAlice.assign 0 userExpiringAt100).deref 0 = some userExpiringAt100 ∧
    (liveAlice.assign 0 userExpiringAt100).deref 0 ≠ liveAlice.deref 0 ∧
    mapGet (liveAlice.assign 0 userExpiringAt100).view "id-1" ≠ mapGet liveAlice.view "id-1" := by
  decide

/-- C25 (amended): `GetUser` and `GetUserByUsername` hand out the pointer the map holds.
For every registry, when a caller assigns the record `v` through a pointer that `GetUser`
(or `GetUserByUsername`) returned, calling no function of the registry, a later `GetUser`
returns the same pointer, the record behind it is `v`, `ListUsers` has the pointer, the
lookup by value gives `v`, and the records behind other pointers are as before. Both
functions return an error exactly when no matching account is stored. -/
theorem returned_record_is_live (s : LiveStorage) (st : JSONStorage) (id : String)
    (p : Nat) (v : User)
    (hall : ∀ e ∈ s.users, e.2 < s.heap.length)
    (hget : s.GetUser id = .ok p) :
    (s.assign p v).GetUser id = .ok p ∧
    (s.assign p v).deref p = some v ∧
    p ∈ (s.assign p v).ListUsers ∧
    mapGet (s.assign p v).view id = some v ∧
    (∀ q, q ≠ p → (s.assign p v).deref q = s.deref q) ∧
    (∀ name q, s.GetUserByUsername name = .ok q →
      (s.assign q v).deref q = some v ∧ q ∈ (s.assign q v).ListUsers) ∧
    (∀ id2, isError (s.GetUser id2) = true ↔ ∀ e ∈ s.users, e.1 ≠ id2) ∧
    (∀ name, isError (s.GetUserByUsername name) = true ↔
      ∀ e ∈ s.users, ∀ user, s.deref e.2 = some user → user.Username ≠ name) ∧
    (∀ id2, isError (st.GetUser id2) = true ↔ mapGet st.users id2 = none) ∧
    (∀ name, isError (st.GetUserByUsername name) = true ↔
      ∀ e ∈ st.users, e.2.Username ≠ name) := by
  have hget1 : s.GetUser id = .ok p := hget
  have hlist : ∀ q, (s.assign q v).ListUsers = s.users.map (fun e => e.2) := by
    intro q
    unfold LiveStorage.ListUsers LiveStorage.assign
    rw [foldl_append_singleton_map]; simp
  have hp : p < s.heap.length := live_getUser_valid s id p hall hget1
  have hget2 : (s.assign p v).GetUser id = .ok p := hget1
  have hderef : (s.assign p v).deref p = some v := by
    simp [LiveStorage.assign, LiveStorage.deref, hp]
  have hall2 : ∀ e ∈ (s.assign p v).users, e.2 < (s.assign p v).heap.length := by
    intro e he
    simpa [LiveStorage.assign] using hall e he
  refine ⟨hget2, hderef, ?_, ?_, ?_, ?_, ?_, ?_, ?_, ?_⟩
  · rw [hlist]
    unfold LiveStorage.GetUser at hget1
    split at hget1
    · cases hget1
    · rename_i e he
      cases hget1
      exact List.mem_map.mpr ⟨e, List.mem_of_find?_eq_some he, rfl⟩
  · rw [live_view_lookup _ id hall2, hget2]
    exact hderef
  · intro q hq
    simp [LiveStorage.assign, LiveStorage.deref, List.getElem?_set_ne (Ne.symm hq)]
  · intro name q hq
    unfold LiveStorage.GetUserByUsername at hq
    split at hq
    · rename_i e he
      cases hq
      have hmem := List.mem_of_find?_eq_some he
      have hv : e.2 < s.heap.length := hall e hmem
      refine ⟨by simp [LiveStorage.assign, LiveStorage.deref, hv], ?_⟩
      rw [hlist]
      exact List.mem_map.mpr ⟨e, hmem, rfl⟩
    · cases hq
  · intro id2
    unfold LiveStorage.GetUser
    split
    · rename_i hnone
      simp only [isError, true_iff]
      intro e he
      simpa using List.find?_eq_none.mp hnone e he
    · rename_i e he
      simp only [isError, Bool.false_eq_true, false_iff]
      intro hcon
      exact hcon e (List.mem_of_find?_eq_some he) (by simpa using List.find?_some he)
  · intro name
    unfold LiveStorage.GetUserByUsername
    split
    · rename_i e he
      simp only [isError, Bool.false_eq_true, false_iff]
      intro hcon
      have h1 := List.find?_some he
      have h2 := List.mem_of_find?_eq_some he
      cases hd : s.deref e.2 with
      | none => simp [hd] at h1
      | some user =>
        simp only [hd, beq_iff_eq] at h1
        exact hcon e h2 user hd h1
    · rename_i hnone
      simp only [isError, true_iff]
      intro e he user hd hname
      have := List.find?_eq_none.mp hnone e he
      simp [hd, hname] at this
  · intro id2
    unfold JSONStorage.GetUser
    cases h : mapGet st.users id2 <;> simp [isError]
  · intro name
    exact getUserByUsername_error_iff st name

/-- C25 (witness): the registry holding `alice`, and a caller that switches the record it
got from `GetUser` to inactive. -/
theorem returned_record_is_live_witness :
    (liveAlice.assign 0 { userExpiringAt100 with IsActive := false }).GetUser "id-1" = .ok 0 ∧
    (liveAlice.assign 0 { userExpiringAt100 with IsActive := false }).deref 0 =
      some { userExpiringAt100 with IsActive := false } :=
  have h := returned_record_is_live liveAlice emptyStorage "id-1" 0
    { userExpiringAt100 with IsActive := false } (by decide) (by decide)
  ⟨h.1, h.2.1⟩

end SingBox
